import Mathlib

/-!
# papr-vpd: chunked VPD retrieval (arch/powerpc/platforms/pseries/papr-vpd.c)

A shallow embedding of the driver.  Conventions:

* a `const char *` is a reader `Nat → Nat` from byte offset to byte value, and
  `bytes p n` is the `n` bytes found behind it;
* an owned heap buffer is the list of its bytes (its length is the allocation size);
  a `NULL` pointer is `none`;
* `u32` and `size_t` stores are taken modulo `2 ^ 32` and `2 ^ 64`;
* everything outside the driver (firmware, allocator, fd table) is an oracle in `Env`,
  and its observable effects are recorded in `World` (calls made, resources taken and
  released, warnings), together with the chunks each successful advance exposes;
* loops that need not terminate (busy retry, chunk loop) take fuel and return `none`
  when it runs out; `none` is also the result of blocking on a held mutex.
-/

namespace PaprVpd

/-! ## Constants -/

/-- Linux errno `ENOMEM`. -/
def ENOMEM : Int := 12
/-- Linux errno for an input/output fault. -/
def EIO : Int := 5
/-- Linux errno `EINVAL`. -/
def EINVAL : Int := 22
/-- Linux errno `EAGAIN`. -/
def EAGAIN : Int := 11
/-- Linux errno `EFAULT`. -/
def EFAULT : Int := 14
/-- Linux errno `EBUSY`. -/
def EBUSY : Int := 16
/-- Size of the work area requested by `vpd_sequence_begin`. -/
def SZ_4K : Nat := 4096
/-- Largest `int`; `kvmalloc` refuses larger requests. -/
def INT_MAX : Nat := 2147483647
/-- Number of values of a `u32`. -/
def U32_MOD : Nat := 4294967296
/-- Number of values of a `size_t` (64-bit). -/
def SIZE_MOD : Nat := 18446744073709551616

/-! ## Environment and observable effects -/

/-- What one `rtas_call` of `ibm,get-vpd` hands back: the status, the two return
words, and the contents of the work area once the call is over. -/
structure RtasReply where
  status : Int
  rets0 : Nat
  rets1 : Nat
  buf : Nat → Nat

/-- One acquisition or release of a resource of the sequence. -/
inductive Event where
  | mutex_lock : Event
  | mutex_unlock : Event
  | work_area_alloc : Nat → Event
  | work_area_free : Event
  deriving DecidableEq, Repr

/-- Record of one `rtas_call`: the cursor it was issued with, and the status and return
words it came back with. -/
structure RtasCall where
  sequence : Nat
  status : Int
  rets0 : Nat
  rets1 : Nat
  deriving DecidableEq, Repr

/-- The oracles the driver runs against. `firmware k loc size seq` is the reply to the
`rtas_call` made after `k` earlier ones, issued for location code `loc`, a work area of `size`
bytes and continuation cursor `seq`; `rtas_busy_delay` tells a busy status;
`alloc_ok k n` tells whether the `k`-th allocation request, of `n` bytes, is granted;
`work_area_init` is what a fresh work area holds. The last four fields are the outcomes
of the calls `papr_vpd_ioctl_create_handle` makes outside the driver. -/
structure Env where
  firmware : Nat → (Nat → Nat) → Nat → Nat → RtasReply
  rtas_busy_delay : Int → Bool
  alloc_ok : Nat → Nat → Bool
  work_area_init : Nat → Nat
  get_unused_fd_flags : Int
  copy_to_user_ok : Bool
  anon_inode_getfile_err : Option Int

/-- Effects accumulated so far: number of allocation requests, the `rtas_call`s made
(in order), the chunks exposed by successful `vpd_sequence_advance`s (in order), the
resource events (in order), the number of `WARN`s raised, whether `vpd_sequence_mutex`
is held, and how many work areas are live. -/
structure World where
  allocs : Nat
  rtas_log : List RtasCall
  chunks : List (List Nat)
  log : List Event
  warns : Nat
  mutex_locked : Bool
  work_areas : Nat

/-- A world in which nothing has happened yet. -/
def World.init : World :=
  { allocs := 0, rtas_log := [], chunks := [], log := [], warns := 0, mutex_locked := false,
    work_areas := 0 }

/-- The `n` bytes behind a pointer. -/
def bytes (p : Nat → Nat) (n : Nat) : List Nat := (List.range n).map p

/-- Reader of an owned buffer (bytes past its end read as 0; never relied upon). -/
def reader (b : List Nat) : Nat → Nat := fun i => b.getD i 0

/-- Modelled from the spec: `memcpy(&dst[off], src, len)` on an owned buffer `dst`
(libc-style copy, not under src/): `len` bytes of `src` replace those at offset `off`. -/
def memcpy_at (dst : List Nat) (off : Nat) (src : Nat → Nat) (len : Nat) : List Nat :=
  dst.take off ++ bytes src len ++ dst.drop (off + len)

/-- Modelled from the spec: `kmalloc`/`kvmalloc` (mm/, not under src/). The request is
refused above `INT_MAX` bytes, otherwise the allocator oracle decides; a granted request
yields a buffer of exactly `size` bytes (for `size = 0` a non-NULL zero-size pointer). -/
def kvmalloc (env : Env) (size : Nat) (w : World) : Option (List Nat) × World :=
  let w1 := { w with allocs := w.allocs + 1 }
  if size ≤ INT_MAX ∧ env.alloc_ok w.allocs size = true then
    (some (List.replicate size 0), w1)
  else
    (none, w1)

/-- Modelled from the spec: `kvrealloc(p, oldsize, newsize)` (mm/util.c, not under
src/): growth by reallocation that preserves the first `oldsize` bytes; a request that
does not grow returns `p` itself. -/
def kvrealloc (env : Env) (p : List Nat) (oldsize newsize : Nat) (w : World) :
    Option (List Nat) × World :=
  if oldsize ≥ newsize then (some p, w)
  else
    match kvmalloc env newsize w with
    | (none, w1) => (none, w1)
    | (some newp, w1) => (some (memcpy_at newp 0 (reader p) oldsize), w1)

/-! ## The blob -/

/-- Mirror of `struct vpd_blob`: `data` is `none` for `NULL`. -/
structure vpd_blob where
  data : Option (List Nat)
  len : Nat

/-- Mirror of `vpd_blob_init`. -/
def vpd_blob_init (data : Option (List Nat)) (len : Nat) : vpd_blob :=
  { data := data, len := len }

/-- Mirror of `vpd_blob_new`: `none` when `kmalloc` of the struct fails. -/
def vpd_blob_new (env : Env) (w : World) : Option vpd_blob × World :=
  match kvmalloc env 16 w with
  | (none, w1) => (none, w1)
  | (some _, w1) => (some (vpd_blob_init none 0), w1)

/-- Mirror of `vpd_blob_has_data`; the second component counts the `WARN_ON_ONCE`
conditions that hold. -/
def vpd_blob_has_data (blob : vpd_blob) : Bool × Nat :=
  let w1 := if blob.data.isSome ∧ blob.len = 0 then 1 else 0
  let w2 := if blob.data.isNone ∧ blob.len ≠ 0 then 1 else 0
  (blob.data.isSome, w1 + w2)

/-- Mirror of `vpd_blob_detach_data`: returns `(len, *buf, blob afterwards)`. -/
def vpd_blob_detach_data (blob : vpd_blob) : Nat × Option (List Nat) × vpd_blob :=
  let len := blob.len
  (len, blob.data, vpd_blob_init none 0)

/-- Mirror of `vpd_blob_setup`: returns the status and the blob afterwards. -/
def vpd_blob_setup (env : Env) (blob : vpd_blob) (data : Nat → Nat) (len : Nat)
    (w : World) : Int × vpd_blob × World :=
  match kvmalloc env len w with
  | (none, w1) => (-ENOMEM, blob, w1)
  | (some ptr, w1) => (0, vpd_blob_init (some (memcpy_at ptr 0 data len)) len, w1)

/-- Mirror of `vpd_blob_append`: returns the status and the blob afterwards.
`vpd_blob_has_data` returns `!!blob->data`, so the first branch is the one on `data`;
its `WARN_ON_ONCE`s are added to the world. -/
def vpd_blob_append (env : Env) (blob : vpd_blob) (data : Nat → Nat) (len : Nat)
    (w : World) : Int × vpd_blob × World :=
  let new_len := (blob.len + len) % SIZE_MOD
  let old_len := blob.len
  let w0 := { w with warns := w.warns + (vpd_blob_has_data blob).2 }
  match blob.data with
  | none => vpd_blob_setup env blob data len w0
  | some old_ptr =>
    match kvrealloc env old_ptr old_len new_len w0 with
    | (none, w1) => (-ENOMEM, blob, w1)
    | (some new_ptr, w1) =>
      (0, { data := some (memcpy_at new_ptr old_len data len), len := new_len }, w1)

/-! ## The firmware call -/

/-- Mirror of `struct rtas_work_area` as far as the driver sees it: its size and its
current contents. -/
structure rtas_work_area where
  size : Nat
  buf : Nat → Nat

/-- Mirror of `struct papr_location_code`: `str` is read at offsets `0 .. 79`. -/
structure papr_location_code where
  str : Nat → Nat

/-- Mirror of `struct rtas_ibm_get_vpd_params`. -/
structure rtas_ibm_get_vpd_params where
  loc_code : papr_location_code
  work_area : rtas_work_area
  sequence : Nat
  written : Nat
  status : Int

/-- One `rtas_call` of `ibm,get-vpd`: asks the firmware oracle and records the call. -/
def rtas_call (env : Env) (loc_code : papr_location_code) (work_area : rtas_work_area)
    (sequence : Nat) (w : World) : RtasReply × World :=
  let r := env.firmware w.rtas_log.length loc_code.str work_area.size sequence
  (r, { w with rtas_log := w.rtas_log ++
          [{ sequence := sequence, status := r.status, rets0 := r.rets0, rets1 := r.rets1 }] })

/-- The `do { fwrc = rtas_call(...) } while (rtas_busy_delay(fwrc))` loop of
`rtas_ibm_get_vpd`: the first reply that is not busy, or `none` when fuel runs out. -/
def rtas_call_loop (env : Env) (loc_code : papr_location_code) (work_area : rtas_work_area)
    (sequence : Nat) : Nat → World → Option (RtasReply × World)
  | 0, _ => none
  | fuel + 1, w =>
    let (r, w1) := rtas_call env loc_code work_area sequence w
    if env.rtas_busy_delay r.status = true then
      rtas_call_loop env loc_code work_area sequence fuel w1
    else some (r, w1)

/-- The `case 0:` arm of the switch in `rtas_ibm_get_vpd` (also reached from `case 1:`):
stores `rets[1]` and checks it against the work-area size. -/
def get_vpd_store_written (params : rtas_ibm_get_vpd_params) (rets1 : Nat) (w : World) :
    Int × rtas_ibm_get_vpd_params × World :=
  let p := { params with written := rets1 % U32_MOD }
  if p.written > p.work_area.size then (-EFAULT, p, { w with warns := w.warns + 1 })
  else (0, p, w)

/-- Mirror of `rtas_ibm_get_vpd`: returns `ret` and the updated parameters. The work
area contents are those the final firmware reply left. -/
def rtas_ibm_get_vpd (env : Env) (fuel : Nat) (params : rtas_ibm_get_vpd_params)
    (w : World) : Option (Int × rtas_ibm_get_vpd_params × World) :=
  match rtas_call_loop env params.loc_code params.work_area params.sequence fuel w with
  | none => none
  | some (r, w1) =>
    let fwrc := r.status
    let p0 := { params with work_area := { params.work_area with buf := r.buf } }
    let (ret, p1, w2) :=
      if fwrc = -1 then (- EIO, p0, w1)
      else if fwrc = -3 then (-EINVAL, p0, w1)
      else if fwrc = -4 then (-EAGAIN, p0, w1)
      else if fwrc = 1 then
        get_vpd_store_written { p0 with sequence := r.rets0 % U32_MOD } r.rets1 w1
      else if fwrc = 0 then get_vpd_store_written p0 r.rets1 w1
      else (- EIO, p0, w1)
    some (ret, { p1 with status := fwrc }, w2)

/-! ## The sequence state machine -/

/-- Mirror of `struct vpd_sequence_state`; the mutex and its pin cookie live in the
world. -/
structure vpd_sequence_state where
  error : Int
  params : rtas_ibm_get_vpd_params

/-- Mirror of `vpd_sequence_begin`: `none` when `mutex_lock` blocks on a held mutex. -/
def vpd_sequence_begin (env : Env) (loc_code : papr_location_code) (w : World) :
    Option (vpd_sequence_state × World) :=
  if w.mutex_locked = true then none
  else
    let w1 := { w with mutex_locked := true, log := w.log ++ [Event.mutex_lock] }
    let static_loc_code := loc_code
    let w2 := { w1 with work_areas := w1.work_areas + 1,
                        log := w1.log ++ [Event.work_area_alloc SZ_4K] }
    some ({ error := 0,
            params := { work_area := { size := SZ_4K, buf := env.work_area_init },
                        loc_code := static_loc_code,
                        sequence := 1,
                        written := 0,
                        status := 0 } }, w2)

/-- Mirror of `vpd_sequence_done`. -/
def vpd_sequence_done (state : vpd_sequence_state) : Bool :=
  if state.error ≠ 0 then true
  else if state.params.status = 0 then
    if state.params.written = 0 then false else true
  else if state.params.status = 1 then false
  else true

/-- Mirror of `vpd_sequence_advance`. A successful advance is recorded in the world
together with the chunk it exposes. -/
def vpd_sequence_advance (env : Env) (fuel : Nat) (state : vpd_sequence_state) (w : World) :
    Option (Bool × vpd_sequence_state × World) :=
  if vpd_sequence_done state = true then some (false, state, w)
  else
    match rtas_ibm_get_vpd env fuel state.params w with
    | none => none
    | some (ret, params, w1) =>
      let state1 : vpd_sequence_state := { error := ret, params := params }
      if state1.error = 0 then
        some (true, state1,
          { w1 with chunks := w1.chunks ++ [bytes params.work_area.buf params.written] })
      else some (false, state1, w1)

/-- Mirror of `vpd_sequence_get_buffer`: the work-area reader and the length. -/
def vpd_sequence_get_buffer (state : vpd_sequence_state) : (Nat → Nat) × Nat :=
  (state.params.work_area.buf, state.params.written)

/-- Mirror of `vpd_sequence_set_err`. -/
def vpd_sequence_set_err (state : vpd_sequence_state) (err : Int) : vpd_sequence_state :=
  { state with error := err }

/-- Mirror of `vpd_sequence_end`. -/
def vpd_sequence_end (_state : vpd_sequence_state) (w : World) : World :=
  let w1 := { w with work_areas := w.work_areas - 1, log := w.log ++ [Event.work_area_free] }
  { w1 with mutex_locked := false, log := w1.log ++ [Event.mutex_unlock] }

/-! ## The orchestrator -/

/-- Mirror of `struct seq_buf`. -/
structure seq_buf where
  buffer : Option (List Nat)
  size : Nat
  len : Nat
  readpos : Nat

/-- Conversion of a `size_t` to `int`. -/
def to_int (n : Nat) : Int :=
  if n % U32_MOD < 2147483648 then (n % U32_MOD : Nat) else (n % U32_MOD : Nat) - 4294967296

/-- Modelled from the spec: `seq_buf_init` (include/linux/seq_buf.h, not under src/):
attaches the storage and clears the write and read positions. -/
def seq_buf_init (_s : seq_buf) (buf : Option (List Nat)) (size : Nat) : seq_buf :=
  { buffer := buf, size := size, len := 0, readpos := 0 }

/-- Modelled from the spec: `seq_buf_commit(s, int num)` (include/linux/seq_buf.h, not
under src/): a negative `num` marks the buffer overflowed, otherwise `num` bytes are
committed. -/
def seq_buf_commit (s : seq_buf) (num : Int) : seq_buf :=
  if num < 0 then { s with len := s.size + 1 }
  else { s with len := s.len + num.toNat }

/-- Modelled from the spec: `seq_buf_used` (include/linux/seq_buf.h, not under src/). -/
def seq_buf_used (s : seq_buf) : Nat := min s.len s.size

/-- The `while (vpd_sequence_advance(&state))` loop of `papr_vpd_retrieve`; `fuel`
bounds each busy-retry loop and the second argument bounds the iterations. -/
def retrieve_loop (env : Env) (fuel : Nat) :
    Nat → vpd_sequence_state → vpd_blob → World → Option (vpd_sequence_state × vpd_blob × World)
  | 0, _, _, _ => none
  | n + 1, state, blob, w =>
    match vpd_sequence_advance env fuel state w with
    | none => none
    | some (false, state1, w1) => some (state1, blob, w1)
    | some (true, state1, w1) =>
      let (buf, len) := vpd_sequence_get_buffer state1
      let (rc, blob1, w2) := vpd_blob_append env blob buf len w1
      retrieve_loop env fuel n (vpd_sequence_set_err state1 rc) blob1 w2

/-- Mirror of `papr_vpd_retrieve`: returns the status and the caller's `seq_buf`. -/
def papr_vpd_retrieve (env : Env) (fuel : Nat) (loc_code : papr_location_code)
    (seq : seq_buf) (w : World) : Option (Int × seq_buf × World) :=
  match vpd_blob_new env w with
  | (none, w1) => some (-ENOMEM, seq, w1)
  | (some blob, w1) =>
    match vpd_sequence_begin env loc_code w1 with
    | none => none
    | some (state0, w2) =>
      match retrieve_loop env fuel fuel state0 blob w2 with
      | none => none
      | some (state, blob1, w3) =>
        let w4 := vpd_sequence_end state w3
        if state.error = 0 then
          let (len, buf, _) := vpd_blob_detach_data blob1
          some (state.error, seq_buf_commit (seq_buf_init seq buf len) (to_int len), w4)
        else some (state.error, seq, w4)

/-! ## The handle -/

/-- Mirror of `struct papr_vpd_handle`: `reserved` is read at indices `0 .. 4`. -/
structure papr_vpd_handle where
  loc_code : papr_location_code
  fd : Int
  size : Nat
  reserved : Nat → Nat

/-- Modelled from the spec: `string_is_terminated(s, len)` (include/linux/string.h, not
under src/): some byte among the first `len` is nul. -/
def string_is_terminated (s : Nat → Nat) (len : Nat) : Bool :=
  (List.range len).any (fun i => s i == 0)

/-- Mirror of `papr_location_code_is_terminated`. -/
def papr_location_code_is_terminated (lc : papr_location_code) : Bool :=
  string_is_terminated lc.str 80

/-- Mirror of `handle_valid`. -/
def handle_valid (handle : papr_vpd_handle) : Bool :=
  if papr_location_code_is_terminated handle.loc_code = false then false
  else (List.range 5).all (fun i => handle.reserved i == 0)

/-- What `papr_vpd_ioctl_create_handle` leaves behind: its return value, the handle
copied back to user space (if any), and the `seq_buf` attached to the installed file
(if any). -/
structure CreateResult where
  ret : Int
  uhandle : Option papr_vpd_handle
  file : Option seq_buf

/-- Mirror of `papr_vpd_ioctl_create_handle`. `khandle` is the outcome of
`memdup_user`: an error code or the copied-in handle. -/
def papr_vpd_ioctl_create_handle (env : Env) (fuel : Nat) (khandle : Except Int papr_vpd_handle)
    (w : World) : Option (CreateResult × World) :=
  match khandle with
  | .error e => some ({ ret := e, uhandle := none, file := none }, w)
  | .ok khandle =>
    if handle_valid khandle = false then
      some ({ ret := -EINVAL, uhandle := none, file := none }, w)
    else
      match kvmalloc env 32 w with
      | (none, w1) => some ({ ret := -ENOMEM, uhandle := none, file := none }, w1)
      | (some _, w1) =>
        let vpd : seq_buf := { buffer := none, size := 0, len := 0, readpos := 0 }
        match papr_vpd_retrieve env fuel khandle.loc_code vpd w1 with
        | none => none
        | some (ret, vpd1, w2) =>
          if ret ≠ 0 then some ({ ret := ret, uhandle := none, file := none }, w2)
          else
            let fd := env.get_unused_fd_flags
            if fd < 0 then some ({ ret := fd, uhandle := none, file := none }, w2)
            else
              let khandle1 := { khandle with size := seq_buf_used vpd1 % U32_MOD, fd := fd }
              if env.copy_to_user_ok = false then
                some ({ ret := -EFAULT, uhandle := none, file := none }, w2)
              else
                match env.anon_inode_getfile_err with
                | some e => some ({ ret := e, uhandle := some khandle1, file := none }, w2)
                | none => some ({ ret := 0, uhandle := some khandle1, file := some vpd1 }, w2)

/-! ## Specification vocabulary -/

/-- A well-formed blob holding the bytes `l`: `len` is their number, and `data` is the
buffer holding them, or `NULL` when there are none. -/
def BlobHolds (blob : vpd_blob) (l : List Nat) : Prop :=
  blob.len = l.length ∧ (blob.data = some l ∨ (blob.data = none ∧ l = []))

/-- Two worlds that differ at most in the allocation and warning counters. -/
def Frame (w w1 : World) : Prop :=
  w1.rtas_log = w.rtas_log ∧ w1.chunks = w.chunks ∧ w1.log = w.log ∧
    w1.mutex_locked = w.mutex_locked ∧ w1.work_areas = w.work_areas

/-- Log entry of a call issued with cursor `sequence` and answered by `r`. -/
def call_record (sequence : Nat) (r : RtasReply) : RtasCall :=
  { sequence := sequence, status := r.status, rets0 := r.rets0, rets1 := r.rets1 }

/-- The reply the firmware gives to the `i`-th next `rtas_call` from world `w`. -/
def nth_reply (env : Env) (params : rtas_ibm_get_vpd_params) (w : World) (i : Nat) : RtasReply :=
  env.firmware (w.rtas_log.length + i) params.loc_code.str params.work_area.size params.sequence

/-- The status mapping of `rtas_ibm_get_vpd` written as a table: the return value for a
final firmware status and second return word, given the work-area size. -/
def get_vpd_ret (size : Nat) (status : Int) (rets1 : Nat) : Int :=
  if status = -1 then - EIO
  else if status = -3 then -EINVAL
  else if status = -4 then -EAGAIN
  else if status = 1 ∨ status = 0 then
    (if rets1 % U32_MOD > size then -EFAULT else 0)
  else - EIO

/-- The parameter block after a call whose final reply was `r`. -/
def params_after (params : rtas_ibm_get_vpd_params) (r : RtasReply) : rtas_ibm_get_vpd_params :=
  { loc_code := params.loc_code,
    work_area := { size := params.work_area.size, buf := r.buf },
    sequence := if r.status = 1 then r.rets0 % U32_MOD else params.sequence,
    written := if r.status = 1 ∨ r.status = 0 then r.rets1 % U32_MOD else params.written,
    status := r.status }

/-- A logged call that `rtas_ibm_get_vpd` turned into a successful result: its status
was final (not busy) and mapped to 0 for a work area of `SZ_4K` bytes. -/
def call_succeeded (env : Env) (c : RtasCall) : Bool :=
  !env.rtas_busy_delay c.status && decide (get_vpd_ret SZ_4K c.status c.rets1 = 0)

/-- Invariant of the chunk loop relating the blob to the chunks exposed since `w0`. -/
def ChunkInv (env : Env) (w0 : World) (st : vpd_sequence_state) (b : vpd_blob) (w : World) : Prop :=
  st.params.work_area.size = SZ_4K ∧
  ∃ (calls : List RtasCall) (new : List (List Nat)),
    w.rtas_log = w0.rtas_log ++ calls ∧ w.chunks = w0.chunks ++ new ∧
    new.map List.length = (calls.filter (call_succeeded env)).map (fun c => c.rets1 % U32_MOD) ∧
    (st.error = 0 → BlobHolds b new.flatten ∧ new.flatten.length ≤ INT_MAX ∧
      (new ≠ [] → b.data = some new.flatten) ∧
      (new = [] → vpd_sequence_done st = false))

/-- What the chunk loop guarantees on exit. -/
def ChunkPost (env : Env) (w0 : World) (st : vpd_sequence_state) (b : vpd_blob) (w : World) : Prop :=
  ∃ (calls : List RtasCall) (new : List (List Nat)),
    w.rtas_log = w0.rtas_log ++ calls ∧ w.chunks = w0.chunks ++ new ∧
    new.map List.length = (calls.filter (call_succeeded env)).map (fun c => c.rets1 % U32_MOD) ∧
    (st.error = 0 → b.data = some new.flatten ∧ b.len = new.flatten.length ∧
      new.flatten.length ≤ INT_MAX)

/-- The state `vpd_sequence_begin` produces. -/
def begin_state (env : Env) (loc_code : papr_location_code) : vpd_sequence_state :=
  { error := 0,
    params := { loc_code := loc_code,
                work_area := { size := SZ_4K, buf := env.work_area_init },
                sequence := 1, written := 0, status := 0 } }

/-- The world `vpd_sequence_begin` leaves: mutex held, one more work area. -/
def begin_world (w : World) : World :=
  { w with mutex_locked := true, work_areas := w.work_areas + 1,
           log := w.log ++ [Event.mutex_lock, Event.work_area_alloc SZ_4K] }

/-- Firmware reply reporting a hardware error (status -1). -/
def hardware_error : RtasReply := { status := -1, rets0 := 0, rets1 := 0, buf := fun _ => 0 }

/-- Scripted firmware: the call made after `k` earlier ones gets the `k`-th reply of the
script, and a hardware error once the script is used up. -/
def script_firmware (script : List RtasReply) : Nat → (Nat → Nat) → Nat → Nat → RtasReply :=
  fun k _ _ _ => script.getD k hardware_error

/-- The busy statuses of RTAS: -2 and the extended delays 9900 .. 9905. -/
def busy_status (s : Int) : Bool := s == -2 || (9900 ≤ s && s ≤ 9905)

/-- Environment with scripted firmware in which every allocation and every call outside
the driver succeeds. -/
def script_env (script : List RtasReply) : Env :=
  { firmware := script_firmware script, rtas_busy_delay := busy_status,
    alloc_ok := fun _ _ => true, work_area_init := fun _ => 0,
    get_unused_fd_flags := 3, copy_to_user_ok := true, anon_inode_getfile_err := none }

/-- The empty location code (all bytes nul). -/
def empty_loc_code : papr_location_code := { str := fun _ => 0 }

/-- A zeroed `seq_buf`, as `kzalloc` returns it. -/
def fresh_seq_buf : seq_buf := { buffer := none, size := 0, len := 0, readpos := 0 }

/-- Firmware reply `more-data`: next cursor, bytes written, work-area contents. -/
def more_data (cursor n : Nat) (buf : Nat → Nat) : RtasReply :=
  { status := 1, rets0 := cursor, rets1 := n, buf := buf }

/-- Firmware reply `complete`: bytes written, work-area contents. -/
def complete (n : Nat) (buf : Nat → Nat) : RtasReply :=
  { status := 0, rets0 := 0, rets1 := n, buf := buf }

/-- Script of a two-chunk retrieval: 3 bytes with `more-data`, then 2 bytes with
`complete`. -/
def two_chunk_script : List RtasReply :=
  [more_data 7 3 (fun i => i + 1), complete 2 (fun i => i + 10)]

/-- The `seq_buf` the two-chunk retrieval hands out. -/
def two_chunk_seq_buf : seq_buf :=
  { buffer := some [1, 2, 3, 10, 11], size := 5, len := 5, readpos := 0 }

/-- The world after the two-chunk retrieval. -/
def two_chunk_world : World :=
  { allocs := 3,
    rtas_log := [{ sequence := 1, status := 1, rets0 := 7, rets1 := 3 },
                 { sequence := 7, status := 0, rets0 := 0, rets1 := 2 }],
    chunks := [[1, 2, 3], [10, 11]],
    log := [Event.mutex_lock, Event.work_area_alloc 4096, Event.work_area_free,
            Event.mutex_unlock],
    warns := 0, mutex_locked := false, work_areas := 0 }

/-- Script of the retrieval of the specification's example: chunks of 100, 100 and 50
bytes with `more-data`, then `complete` with 0 bytes. -/
def zero_tail_script : List RtasReply :=
  [more_data 2 100 (fun i => i % 7), more_data 3 100 (fun i => i % 5),
   more_data 4 50 (fun i => i % 3), complete 0 (fun _ => 0)]

/-- Script in which the very first call answers `complete` with 0 bytes. -/
def empty_vpd_script : List RtasReply := [complete 0 (fun _ => 0)]

/-- Script in which the first call answers `complete` but reports 5000 bytes written,
more than the work area holds. -/
def oversized_script : List RtasReply := [complete 5000 (fun _ => 0)]

/-- A handle whose location code is 80 times the letter x, with nothing else set. -/
def unterminated_handle : papr_vpd_handle :=
  { loc_code := { str := fun _ => 120 }, fd := 0, size := 0, reserved := fun _ => 0 }

/-- The cursor the driver holds after the logged call `c`, having held `cur` before it:
the first return word if the call came back `more-data` (status 1, and that status is
not a busy one), otherwise `cur` itself. -/
def cursor_step (env : Env) (cur : Nat) (c : RtasCall) : Nat :=
  if c.status = 1 ∧ env.rtas_busy_delay c.status = false then c.rets0 % U32_MOD else cur

/-- The cursor held after a list of logged calls. -/
def cursor_after (env : Env) (cur : Nat) (l : List RtasCall) : Nat :=
  l.foldl (cursor_step env) cur

/-- Every logged call was issued with the cursor held at that point, starting
from `cur`. -/
def cursor_threaded (env : Env) : Nat → List RtasCall → Prop
  | _, [] => True
  | cur, c :: rest => c.sequence = cur ∧ cursor_threaded env (cursor_step env cur c) rest

/-- Invariant of the chunk loop for the cursor: the calls logged since `w0` are threaded
from cursor 1 and the state holds the cursor after them. -/
def CursorInv (env : Env) (w0 : World) (st : vpd_sequence_state) (_b : vpd_blob) (w : World) :
    Prop :=
  ∃ calls : List RtasCall, w.rtas_log = w0.rtas_log ++ calls ∧
    cursor_threaded env 1 calls ∧ st.params.sequence = cursor_after env 1 calls

/-- Environment whose firmware answers every call `complete` with 0 bytes written (a
location without VPD), and in which every allocation succeeds. -/
def empty_vpd_env : Env :=
  { firmware := fun _ _ _ _ => complete 0 (fun _ => 0), rtas_busy_delay := busy_status,
    alloc_ok := fun _ _ => true, work_area_init := fun _ => 0,
    get_unused_fd_flags := 3, copy_to_user_ok := true, anon_inode_getfile_err := none }

/-- The world in which `vpd_blob_append` makes its allocation request: `w` with the
warnings of `vpd_blob_has_data` added. -/
def append_world (blob : vpd_blob) (w : World) : World :=
  { w with warns := w.warns + (vpd_blob_has_data blob).2 }

/-- The invariant the `WARN_ON_ONCE`s of `vpd_blob_has_data` assert: `data` is `NULL` if
and only if `len` is 0. -/
def blob_invariant (blob : vpd_blob) : Prop := blob.data = none ↔ blob.len = 0

/-- Script in which the first call answers `more-data` with 0 bytes written and the
second `complete` with 3 bytes. -/
def empty_chunk_script : List RtasReply :=
  [more_data 2 0 (fun _ => 0), complete 3 (fun i => i + 1)]

/-- The all-zero handle: empty location code, nothing else set. -/
def zero_handle : papr_vpd_handle :=
  { loc_code := empty_loc_code, fd := 0, size := 0, reserved := fun _ => 0 }

/-- Invariant of the chunk loop for the size: without error, the status is `complete` or
`more-data`, and the blob is well formed and holds at least as many bytes as the last
call wrote. -/
def SizeInv (st : vpd_sequence_state) (b : vpd_blob) (_w : World) : Prop :=
  st.error = 0 → (st.params.status = 0 ∨ st.params.status = 1) ∧
    ∃ l : List Nat, BlobHolds b l ∧ l.length ≤ INT_MAX ∧ st.params.written ≤ l.length

/-- What the chunk loop guarantees on exit about the size: without error, the blob is
well formed and not empty. -/
def SizePost (st : vpd_sequence_state) (b : vpd_blob) (_w : World) : Prop :=
  st.error = 0 → ∃ l : List Nat, BlobHolds b l ∧ l.length ≤ INT_MAX ∧ 0 < l.length

/-- What a successful create-handle request against `two_chunk_script` leaves for the
all-zero handle: file descriptor 3 and size 5 copied back, and the two-chunk `seq_buf`
attached to the file. -/
def two_chunk_create_result : CreateResult :=
  { ret := 0,
    uhandle := some { loc_code := empty_loc_code, fd := 3, size := 5, reserved := fun _ => 0 },
    file := some two_chunk_seq_buf }

/-- Modelled from the spec: `seq_buf_to_user(s, ubuf, cnt)` (lib/seq_buf.c, not under
src/): copies up to `cnt` of the bytes not yet read to user space and advances the read
position; `-EBUSY` when nothing is left, `-EFAULT` when nothing could be copied.
`uncopied` is what `copy_to_user` reports as not copied. Returns the result, the bytes
delivered and the `seq_buf` afterwards. -/
def seq_buf_to_user (s : seq_buf) (cnt : Int) (uncopied : Nat) : Int × List Nat × seq_buf :=
  if cnt = 0 then (0, [], s)
  else
    let len : Int := to_int (seq_buf_used s)
    if len ≤ (s.readpos : Int) then (-EBUSY, [], s)
    else
      let len1 : Int := len - (s.readpos : Int)
      let cnt1 : Int := if cnt > len1 then len1 else cnt
      let ret : Int := min (uncopied : Int) cnt1
      if ret = cnt1 then (-EFAULT, [], s)
      else
        let cnt2 : Int := cnt1 - ret
        (cnt2, ((s.buffer.getD []).drop s.readpos).take cnt2.toNat,
          { s with readpos := s.readpos + cnt2.toNat })

/-- Mirror of `papr_vpd_handle_read`: returns the result, the bytes delivered to the
user buffer and the `seq_buf` afterwards; the file offset argument is not used. -/
def papr_vpd_handle_read (vpd : seq_buf) (size : Nat) (uncopied : Nat) :
    Int × List Nat × seq_buf :=
  let copy_size := min size (seq_buf_used vpd)
  let r := seq_buf_to_user vpd (to_int copy_size) uncopied
  (if r.1 = -EBUSY then 0 else r.1, r.2.1, r.2.2)

/-- A run of reads on one handle with the given request sizes, every copy to user space
succeeding: the results, the bytes delivered (in order) and the `seq_buf` afterwards. -/
def read_all (vpd : seq_buf) : List Nat → List Int × List Nat × seq_buf
  | [] => ([], [], vpd)
  | size :: rest =>
    let r := papr_vpd_handle_read vpd size 0
    let rs := read_all r.2.2 rest
    (r.1 :: rs.1, r.2.1 ++ rs.2.1, rs.2.2)

/-- A `seq_buf` that streams the bytes `d`: they are its storage, all committed, of a
length an `int` holds, and the read position is within them. -/
def StreamOk (s : seq_buf) (d : List Nat) : Prop :=
  s.buffer = some d ∧ s.len = d.length ∧ s.size = d.length ∧ d.length ≤ INT_MAX ∧
    s.readpos ≤ d.length

/-- The counts a sequential stream with `remaining` bytes left gives to requests of the
given sizes: each time the smaller of the request and what is left. -/
def expected_counts : Nat → List Nat → List Nat
  | _, [] => []
  | remaining, size :: rest =>
    min size remaining :: expected_counts (remaining - min size remaining) rest

/-- A `seq_buf` of three bytes, nothing read yet. -/
def three_byte_stream : seq_buf :=
  { buffer := some [1, 2, 3], size := 3, len := 3, readpos := 0 }

/-- The first `k` iterations of the chunk loop when each of them fetches a chunk and
appends it successfully: the state, blob and world after them, or `none` if one of them
does not go that way. -/
def loop_iterations (env : Env) (fuel : Nat) :
    Nat → vpd_sequence_state → vpd_blob → World → Option (vpd_sequence_state × vpd_blob × World)
  | 0, state, blob, w => some (state, blob, w)
  | k + 1, state, blob, w =>
    match vpd_sequence_advance env fuel state w with
    | some (true, state1, w1) =>
      if (vpd_blob_append env blob state1.params.work_area.buf state1.params.written w1).1 = 0
      then
        loop_iterations env fuel k
          (vpd_sequence_set_err state1
            (vpd_blob_append env blob state1.params.work_area.buf state1.params.written w1).1)
          (vpd_blob_append env blob state1.params.work_area.buf state1.params.written w1).2.1
          (vpd_blob_append env blob state1.params.work_area.buf state1.params.written w1).2.2
      else none
    | _ => none

/-- Environment of the two-chunk firmware in which only the first two allocation
requests are granted: the blob structure and the first chunk. -/
def alloc_fail_env : Env :=
  { script_env two_chunk_script with alloc_ok := fun k _ => decide (k < 2) }

/-- State, blob and world after the first iteration of the chunk loop against
`alloc_fail_env`: one chunk of 3 bytes fetched and appended. -/
def alloc_fail_first : vpd_sequence_state × vpd_blob × World :=
  ({ error := 0,
     params := params_after (begin_state alloc_fail_env empty_loc_code).params
       (more_data 7 3 (fun i => i + 1)) },
   { data := some [1, 2, 3], len := 3 },
   { allocs := 2,
     rtas_log := [{ sequence := 1, status := 1, rets0 := 7, rets1 := 3 }],
     chunks := [[1, 2, 3]],
     log := [Event.mutex_lock, Event.work_area_alloc 4096],
     warns := 0, mutex_locked := true, work_areas := 1 })

/-- State after the second advance against `alloc_fail_env`. -/
def alloc_fail_state : vpd_sequence_state :=
  { error := 0,
    params := params_after alloc_fail_first.1.params (complete 2 (fun i => i + 10)) }

/-- World after the second advance against `alloc_fail_env`. -/
def alloc_fail_advanced : World :=
  { allocs := 2,
    rtas_log := [{ sequence := 1, status := 1, rets0 := 7, rets1 := 3 },
                 { sequence := 7, status := 0, rets0 := 0, rets1 := 2 }],
    chunks := [[1, 2, 3], [10, 11]],
    log := [Event.mutex_lock, Event.work_area_alloc 4096],
    warns := 0, mutex_locked := true, work_areas := 1 }

/-- World after the retrieval against `alloc_fail_env`. -/
def alloc_fail_world : World :=
  { allocs := 3,
    rtas_log := [{ sequence := 1, status := 1, rets0 := 7, rets1 := 3 },
                 { sequence := 7, status := 0, rets0 := 0, rets1 := 2 }],
    chunks := [[1, 2, 3], [10, 11]],
    log := [Event.mutex_lock, Event.work_area_alloc 4096, Event.work_area_free,
            Event.mutex_unlock],
    warns := 0, mutex_locked := false, work_areas := 0 }

/-! ## Lemmas -/

theorem bytes_length (p : Nat → Nat) (n : Nat) : (bytes p n).length = n := by
  simp [bytes]

theorem bytes_reader (l : List Nat) : bytes (reader l) l.length = l := by
  apply List.ext_getElem
  · simp [bytes]
  · intro i h1 h2
    simp [bytes, reader, List.getD_eq_getElem?_getD, List.getElem?_eq_getElem h2]

theorem memcpy_at_fresh (n : Nat) (src : Nat → Nat) :
    memcpy_at (List.replicate n 0) 0 src n = bytes src n := by
  simp [memcpy_at]

theorem memcpy_at_end (l : List Nat) (src : Nat → Nat) (n : Nat) (tail : List Nat)
    (ht : tail.length = n) :
    memcpy_at (l ++ tail) l.length src n = l ++ bytes src n := by
  simp [memcpy_at, ← ht]

theorem memcpy_at_grow (l : List Nat) (n : Nat) :
    memcpy_at (List.replicate (l.length + n) 0) 0 (reader l) l.length
      = l ++ List.replicate n 0 := by
  simp [memcpy_at, bytes_reader]

theorem kvmalloc_cases (env : Env) (size : Nat) (w : World) :
    (kvmalloc env size w = (none, { w with allocs := w.allocs + 1 })) ∨
    (size ≤ INT_MAX ∧
      kvmalloc env size w = (some (List.replicate size 0), { w with allocs := w.allocs + 1 })) := by
  unfold kvmalloc
  by_cases h : size ≤ INT_MAX ∧ env.alloc_ok w.allocs size = true
  · right; exact ⟨h.1, by simp [h]⟩
  · left; simp [h]

theorem kvmalloc_frame (env : Env) (size : Nat) (w : World) :
    Frame w (kvmalloc env size w).2 := by
  rcases kvmalloc_cases env size w with hk | ⟨_, hk⟩ <;> rw [hk] <;>
    exact ⟨rfl, rfl, rfl, rfl, rfl⟩

theorem kvrealloc_frame (env : Env) (p : List Nat) (o n : Nat) (w : World) :
    Frame w (kvrealloc env p o n w).2 := by
  unfold kvrealloc
  by_cases h : o ≥ n
  · simp only [h, if_true]; exact ⟨rfl, rfl, rfl, rfl, rfl⟩
  · simp only [h, if_false]
    rcases kvmalloc_cases env n w with hk | ⟨_, hk⟩ <;> rw [hk] <;>
      exact ⟨rfl, rfl, rfl, rfl, rfl⟩

theorem vpd_blob_append_frame (env : Env) (blob : vpd_blob) (data : Nat → Nat) (len : Nat)
    (w : World) : Frame w (vpd_blob_append env blob data len w).2.2 := by
  unfold vpd_blob_append vpd_blob_setup
  cases hd : blob.data with
  | none =>
    simp only []
    rcases kvmalloc_cases env len { w with warns := w.warns + (vpd_blob_has_data blob).2 }
      with hk | ⟨_, hk⟩ <;> rw [hk] <;> exact ⟨rfl, rfl, rfl, rfl, rfl⟩
  | some p =>
    simp only []
    have hf := kvrealloc_frame env p blob.len ((blob.len + len) % SIZE_MOD)
      { w with warns := w.warns + (vpd_blob_has_data blob).2 }
    generalize kvrealloc env p blob.len ((blob.len + len) % SIZE_MOD)
      { w with warns := w.warns + (vpd_blob_has_data blob).2 } = r at hf
    obtain ⟨o, w1⟩ := r
    cases o <;> exact hf

theorem vpd_blob_append_spec (env : Env) (blob : vpd_blob) (l : List Nat) (data : Nat → Nat)
    (len : Nat) (w : World) (hb : BlobHolds blob l) (hlen : l.length + len < SIZE_MOD) :
    ((vpd_blob_append env blob data len w).1 = -ENOMEM ∧
      (vpd_blob_append env blob data len w).2.1 = blob) ∨
    ((vpd_blob_append env blob data len w).1 = 0 ∧
      (vpd_blob_append env blob data len w).2.1
        = { data := some (l ++ bytes data len), len := l.length + len } ∧
      (len = 0 ∨ l.length + len ≤ INT_MAX)) := by
  obtain ⟨h1, h3⟩ := hb
  rcases h3 with h3 | ⟨h3, h4⟩
  · -- data present
    unfold vpd_blob_append
    simp only [h3, h1, Nat.mod_eq_of_lt hlen]
    unfold kvrealloc
    by_cases hz : l.length ≥ l.length + len
    · have : len = 0 := by omega
      subst this
      right
      simp [memcpy_at, bytes]
    · simp only [hz, if_false]
      rcases kvmalloc_cases env (l.length + len)
        { w with warns := w.warns + (vpd_blob_has_data blob).2 } with hk | ⟨hk1, hk⟩
      · rw [hk]; left; simp
      · rw [hk]; right
        simp only [memcpy_at_grow]
        rw [memcpy_at_end l data len _ (by simp)]
        simp [hk1]
  · subst h4
    unfold vpd_blob_append vpd_blob_setup
    simp only [h3]
    rcases kvmalloc_cases env len
      { w with warns := w.warns + (vpd_blob_has_data blob).2 } with hk | ⟨hk1, hk⟩
    · rw [hk]; left; simp
    · rw [hk]; right
      simp [memcpy_at_fresh, vpd_blob_init, hk1]

theorem rtas_call_loop_some (env : Env) (lc : papr_location_code) (wa : rtas_work_area)
    (sequence : Nat) :
    ∀ (fuel : Nat) (w : World) (r : RtasReply) (w1 : World),
      rtas_call_loop env lc wa sequence fuel w = some (r, w1) →
      ∃ pre : List RtasCall,
        (∀ c ∈ pre, c.sequence = sequence ∧ env.rtas_busy_delay c.status = true) ∧
        env.rtas_busy_delay r.status = false ∧
        w1 = { w with rtas_log := w.rtas_log ++ (pre ++ [call_record sequence r]) } ∧
        pre.length < fuel ∧
        r = env.firmware (w.rtas_log.length + pre.length) lc.str wa.size sequence := by
  intro fuel
  induction fuel with
  | zero => intro w r w1 h; simp [rtas_call_loop] at h
  | succ n ih =>
    intro w r w1 h
    unfold rtas_call_loop rtas_call at h
    simp only [] at h
    by_cases hb : env.rtas_busy_delay (env.firmware w.rtas_log.length lc.str wa.size sequence).status = true
    · simp only [hb, if_true] at h
      obtain ⟨pre, h1, h2, h3, h4, h5⟩ := ih _ r w1 h
      refine ⟨call_record sequence (env.firmware w.rtas_log.length lc.str wa.size sequence) :: pre,
        ?_, h2, ?_, by simpa using h4, ?_⟩
      · intro c hc
        rcases List.mem_cons.1 hc with hc | hc
        · subst hc; exact ⟨rfl, hb⟩
        · exact h1 c hc
      · rw [h3]; simp [call_record]
      · rw [h5]; simp [Nat.add_assoc, Nat.add_comm 1]
    · simp only [hb] at h
      simp only [Bool.false_eq_true, if_false, Option.some.injEq, Prod.mk.injEq] at h
      obtain ⟨h1, h2⟩ := h
      refine ⟨[], by simp, ?_, ?_, by simp, ?_⟩
      · rw [← h1]; simpa using hb
      · rw [← h2, ← h1]; simp [call_record]
      · rw [← h1]; simp

theorem rtas_call_loop_of (env : Env) (params : rtas_ibm_get_vpd_params) :
    ∀ (fuel j : Nat) (w : World), j < fuel →
      (∀ i, i < j → env.rtas_busy_delay (nth_reply env params w i).status = true) →
      env.rtas_busy_delay (nth_reply env params w j).status = false →
      ∃ w1, rtas_call_loop env params.loc_code params.work_area params.sequence fuel w
          = some (nth_reply env params w j, w1) := by
  intro fuel
  induction fuel with
  | zero => intro j w h; omega
  | succ n ih =>
    intro j w hj hbusy hfin
    unfold rtas_call_loop rtas_call
    simp only []
    cases j with
    | zero =>
      have : env.rtas_busy_delay (env.firmware w.rtas_log.length params.loc_code.str
          params.work_area.size params.sequence).status = false := by
        simpa [nth_reply] using hfin
      simp only [this, Bool.false_eq_true, if_false]
      exact ⟨_, rfl⟩
    | succ j =>
      have h0 : env.rtas_busy_delay (env.firmware w.rtas_log.length params.loc_code.str
          params.work_area.size params.sequence).status = true := by
        simpa [nth_reply] using hbusy 0 (by omega)
      simp only [h0, if_true]
      have key : ∀ (w2 : World), w2.rtas_log.length = w.rtas_log.length + 1 →
          ∀ i, nth_reply env params w2 i = nth_reply env params w (i + 1) := by
        intro w2 h2 i
        simp [nth_reply, h2, Nat.add_assoc, Nat.add_comm 1]
      obtain ⟨w1, hw1⟩ := ih j
        { w with rtas_log := w.rtas_log ++
            [{ sequence := params.sequence,
               status := (env.firmware w.rtas_log.length params.loc_code.str
                  params.work_area.size params.sequence).status,
               rets0 := (env.firmware w.rtas_log.length params.loc_code.str
                  params.work_area.size params.sequence).rets0,
               rets1 := (env.firmware w.rtas_log.length params.loc_code.str
                  params.work_area.size params.sequence).rets1 }] }
        (by omega)
        (by intro i hi; rw [key _ (by simp)]; exact hbusy (i + 1) (by omega))
        (by rw [key _ (by simp)]; exact hfin)
      rw [key _ (by simp)] at hw1
      exact ⟨w1, hw1⟩

theorem rtas_ibm_get_vpd_eq (env : Env) (fuel : Nat) (params : rtas_ibm_get_vpd_params)
    (w : World) :
    rtas_ibm_get_vpd env fuel params w =
      (rtas_call_loop env params.loc_code params.work_area params.sequence fuel w).map
        (fun rw => (get_vpd_ret params.work_area.size rw.1.status rw.1.rets1,
          params_after params rw.1,
          { rw.2 with warns := rw.2.warns +
              (if (rw.1.status = 1 ∨ rw.1.status = 0) ∧
                  rw.1.rets1 % U32_MOD > params.work_area.size then 1 else 0) })) := by
  unfold rtas_ibm_get_vpd
  cases hl : rtas_call_loop env params.loc_code params.work_area params.sequence fuel w with
  | none => rfl
  | some rw =>
    obtain ⟨r, w1⟩ := rw
    simp only [Option.map_some']
    by_cases h1 : r.status = -1
    · simp [h1, get_vpd_ret, params_after]
    by_cases h3 : r.status = -3
    · simp [h3, get_vpd_ret, params_after]
    by_cases h4 : r.status = -4
    · simp [h4, get_vpd_ret, params_after]
    by_cases hp : r.status = 1
    · by_cases hw : r.rets1 % U32_MOD > params.work_area.size
      · simp [hp, get_vpd_ret, params_after, get_vpd_store_written, hw]
      · simp [hp, get_vpd_ret, params_after, get_vpd_store_written, hw]
    by_cases hz : r.status = 0
    · by_cases hw : r.rets1 % U32_MOD > params.work_area.size
      · simp [hz, get_vpd_ret, params_after, get_vpd_store_written, hw]
      · simp [hz, get_vpd_ret, params_after, get_vpd_store_written, hw]
    · simp [h1, h3, h4, hp, hz, get_vpd_ret, params_after]

theorem vpd_sequence_advance_done (env : Env) (fuel : Nat) (state : vpd_sequence_state)
    (w : World) (h : vpd_sequence_done state = true) :
    vpd_sequence_advance env fuel state w = some (false, state, w) := by
  unfold vpd_sequence_advance; simp [h]

theorem vpd_sequence_advance_some (env : Env) (fuel : Nat) (state : vpd_sequence_state)
    (w : World) (b : Bool) (st1 : vpd_sequence_state) (w1 : World)
    (hd : vpd_sequence_done state = false)
    (h : vpd_sequence_advance env fuel state w = some (b, st1, w1)) :
    ∃ (r : RtasReply) (pre : List RtasCall),
      (∀ c ∈ pre, c.sequence = state.params.sequence ∧ env.rtas_busy_delay c.status = true) ∧
      env.rtas_busy_delay r.status = false ∧
      pre.length < fuel ∧
      r = nth_reply env state.params w pre.length ∧
      st1 = { error := get_vpd_ret state.params.work_area.size r.status r.rets1,
              params := params_after state.params r } ∧
      b = decide (st1.error = 0) ∧
      w1 = { w with
        rtas_log := w.rtas_log ++ (pre ++ [call_record state.params.sequence r]),
        warns := w.warns + (if (r.status = 1 ∨ r.status = 0) ∧
            r.rets1 % U32_MOD > state.params.work_area.size then 1 else 0),
        chunks := if st1.error = 0 then w.chunks ++ [bytes r.buf (r.rets1 % U32_MOD)]
                  else w.chunks } := by
  unfold vpd_sequence_advance at h
  simp only [hd, Bool.false_eq_true, if_false] at h
  rw [rtas_ibm_get_vpd_eq] at h
  cases hl : rtas_call_loop env state.params.loc_code state.params.work_area
      state.params.sequence fuel w with
  | none => simp [hl] at h
  | some rw =>
    obtain ⟨r, w2⟩ := rw
    obtain ⟨pre, h1, h2, h3, h4, h5⟩ := rtas_call_loop_some env _ _ _ fuel w r w2 hl
    refine ⟨r, pre, h1, h2, h4, h5, ?_⟩
    simp only [hl, Option.map_some'] at h
    by_cases he : get_vpd_ret state.params.work_area.size r.status r.rets1 = 0
    · simp only [he, if_true, Option.some.injEq, Prod.mk.injEq] at h
      obtain ⟨hb, hs, hw⟩ := h
      have hst : r.status = 1 ∨ r.status = 0 := by
        unfold get_vpd_ret at he
        by_contra hc
        simp only [hc, if_false] at he
        split_ifs at he <;> simp [ EIO, EINVAL, EAGAIN] at he
      have hfit : ¬ r.rets1 % U32_MOD > state.params.work_area.size := by
        unfold get_vpd_ret at he
        intro hc
        have h1 : r.status ≠ -1 := by rcases hst with h | h <;> simp [h]
        have h3 : r.status ≠ -3 := by rcases hst with h | h <;> simp [h]
        have h4 : r.status ≠ -4 := by rcases hst with h | h <;> simp [h]
        simp [h1, h3, h4, hst, hc, EFAULT] at he
      subst hs
      refine ⟨by rw [he], by simp [hb.symm], ?_⟩
      rw [← hw, h3]
      simp [params_after, hst, hfit]
    · simp only [he, if_false, Option.some.injEq, Prod.mk.injEq] at h
      obtain ⟨hb, hs, hw⟩ := h
      subst hs
      refine ⟨rfl, by simp [hb.symm, he], ?_⟩
      rw [← hw, h3]
      simp [he]

theorem retrieve_loop_rule (env : Env) (fuel : Nat)
    (I Q : vpd_sequence_state → vpd_blob → World → Prop)
    (hdone : ∀ st b w, I st b w → vpd_sequence_done st = true → Q st b w)
    (hfail : ∀ st b w st1 w1, I st b w → vpd_sequence_done st = false →
      vpd_sequence_advance env fuel st w = some (false, st1, w1) → Q st1 b w1)
    (hstep : ∀ st b w st1 w1, I st b w → vpd_sequence_done st = false →
      vpd_sequence_advance env fuel st w = some (true, st1, w1) →
      I (vpd_sequence_set_err st1
          (vpd_blob_append env b st1.params.work_area.buf st1.params.written w1).1)
        (vpd_blob_append env b st1.params.work_area.buf st1.params.written w1).2.1
        (vpd_blob_append env b st1.params.work_area.buf st1.params.written w1).2.2) :
    ∀ (n : Nat) (st : vpd_sequence_state) (b : vpd_blob) (w : World), I st b w →
      ∀ st2 b2 w2, retrieve_loop env fuel n st b w = some (st2, b2, w2) → Q st2 b2 w2 := by
  intro n
  induction n with
  | zero => intro st b w _ st2 b2 w2 h; simp [retrieve_loop] at h
  | succ n ih =>
    intro st b w hI st2 b2 w2 h
    unfold retrieve_loop at h
    cases ha : vpd_sequence_advance env fuel st w with
    | none => simp [ha] at h
    | some res =>
      obtain ⟨ok, st1, w1⟩ := res
      by_cases hd : vpd_sequence_done st = true
      · rw [vpd_sequence_advance_done env fuel st w hd] at ha
        simp only [Option.some.injEq, Prod.mk.injEq] at ha
        obtain ⟨h1, h2, h3⟩ := ha
        subst h1 h2 h3
        rw [vpd_sequence_advance_done env fuel st w hd] at h
        simp only [Option.some.injEq, Prod.mk.injEq] at h
        obtain ⟨h1, h2, h3⟩ := h
        subst h1 h2 h3
        exact hdone _ _ _ hI hd
      · have hd : vpd_sequence_done st = false := by simpa using hd
        cases ok with
        | false =>
          rw [ha] at h
          simp only [Option.some.injEq, Prod.mk.injEq] at h
          obtain ⟨h1, h2, h3⟩ := h
          subst h1 h2 h3
          exact hfail _ _ _ _ _ hI hd ha
        | true =>
          rw [ha] at h
          simp only [vpd_sequence_get_buffer] at h
          exact ih _ _ _ (hstep _ _ _ _ _ hI hd ha) _ _ _ h

theorem vpd_sequence_done_false_error (st : vpd_sequence_state)
    (h : vpd_sequence_done st = false) : st.error = 0 := by
  unfold vpd_sequence_done at h
  by_contra hc
  simp [hc] at h

theorem to_int_of_le (n : Nat) (h : n ≤ INT_MAX) : to_int n = (n : Int) := by
  unfold to_int
  unfold INT_MAX at h
  have h1 : n % U32_MOD = n := Nat.mod_eq_of_lt (by unfold U32_MOD; omega)
  rw [h1]
  have : n < 2147483648 := by omega
  simp [this]

theorem seq_buf_commit_nat (s : seq_buf) (n : Nat) :
    seq_buf_commit s (n : Int) = { s with len := s.len + n } := by
  unfold seq_buf_commit
  have : ¬ ((n : Int) < 0) := by omega
  simp [this]

theorem filter_busy_nil (env : Env) (seqn : Nat) (pre : List RtasCall)
    (h : ∀ c ∈ pre, c.sequence = seqn ∧ env.rtas_busy_delay c.status = true) :
    pre.filter (call_succeeded env) = [] := by
  rw [List.filter_eq_nil_iff]
  intro c hc
  simp [call_succeeded, (h c hc).2]

theorem chunk_loop_post (env : Env) (fuel : Nat) (w0 : World) :
    ∀ (n : Nat) (st : vpd_sequence_state) (b : vpd_blob) (w : World), ChunkInv env w0 st b w →
      ∀ st2 b2 w2, retrieve_loop env fuel n st b w = some (st2, b2, w2) →
        ChunkPost env w0 st2 b2 w2 := by
  apply retrieve_loop_rule env fuel (ChunkInv env w0) (ChunkPost env w0)
  · -- exit because the sequence is done
    rintro st b w ⟨_, calls, new, h1, h2, h3, h4⟩ hd
    refine ⟨calls, new, h1, h2, h3, fun he => ?_⟩
    obtain ⟨hb, hmax, hne, hnil⟩ := h4 he
    have hnew : new ≠ [] := by
      intro hc
      rw [hnil hc] at hd
      exact Bool.false_ne_true hd
    exact ⟨hne hnew, hb.1, hmax⟩
  · -- exit because the firmware call failed
    rintro st b w st1 w1 ⟨hsz, calls, new, h1, h2, h3, _⟩ hd ha
    obtain ⟨r, pre, hp1, hp2, _, _, hst, hb, hw⟩ :=
      vpd_sequence_advance_some env fuel st w false st1 w1 hd ha
    have he : st1.error ≠ 0 := by simpa using hb
    have he2 : get_vpd_ret SZ_4K r.status r.rets1 ≠ 0 := by
      rw [hst, hsz] at he; exact he
    refine ⟨calls ++ (pre ++ [call_record st.params.sequence r]), new, ?_, ?_, ?_,
      fun h => absurd h he⟩
    · rw [hw]; simp [h1]
    · rw [hw]; simp [he, h2]
    · rw [h3]
      simp [List.filter_append, filter_busy_nil env _ pre hp1, call_succeeded, call_record, he2]
  · -- one more chunk
    rintro st b w st1 w1 ⟨hsz, calls, new, h1, h2, h3, h4⟩ hd ha
    obtain ⟨r, pre, hp1, hp2, _, _, hst, hb, hw⟩ :=
      vpd_sequence_advance_some env fuel st w true st1 w1 hd ha
    have he : st1.error = 0 := by simpa using hb.symm
    have he2 : get_vpd_ret SZ_4K r.status r.rets1 = 0 := by
      rw [hst, hsz] at he; exact he
    have hst01 : r.status = 1 ∨ r.status = 0 := by
      unfold get_vpd_ret at he2
      by_contra hc
      simp only [hc, if_false] at he2
      split_ifs at he2 <;> simp [ EIO, EINVAL, EAGAIN] at he2
    have hwr : st1.params.written = r.rets1 % U32_MOD := by
      rw [hst]; simp [params_after, hst01]
    have hbuf : st1.params.work_area.buf = r.buf := by rw [hst]; simp [params_after]
    obtain ⟨hb0, hmax, hne, _⟩ := h4 (vpd_sequence_done_false_error st hd)
    have hlen : new.flatten.length + st1.params.written < SIZE_MOD := by
      have := hmax
      have h2 : st1.params.written < U32_MOD := by
        rw [hwr]; exact Nat.mod_lt _ (by unfold U32_MOD; omega)
      unfold INT_MAX at this; unfold U32_MOD at h2; unfold SIZE_MOD
      omega
    obtain ⟨f1, f2, f3, f4, f5⟩ :=
      vpd_blob_append_frame env b st1.params.work_area.buf st1.params.written w1
    refine ⟨by rw [hst]; simpa [params_after] using hsz,
      calls ++ (pre ++ [call_record st.params.sequence r]),
      new ++ [bytes r.buf (r.rets1 % U32_MOD)], ?_, ?_, ?_, ?_⟩
    · rw [f1, hw]; simp [h1]
    · rw [f2, hw]; simp [he, h2]
    · simp [List.filter_append, filter_busy_nil env _ pre hp1, call_succeeded, call_record,
        he2, hp2, h3, bytes_length]
    · intro herr
      simp only [vpd_sequence_set_err] at herr
      rcases vpd_blob_append_spec env b new.flatten st1.params.work_area.buf
        st1.params.written w1 hb0 hlen with ⟨hrc, _⟩ | ⟨hrc, hbl, hbound⟩
      · rw [hrc] at herr; simp [ENOMEM] at herr
      · have hfl : (new ++ [bytes r.buf (r.rets1 % U32_MOD)]).flatten
            = new.flatten ++ bytes st1.params.work_area.buf st1.params.written := by
          simp [hwr, hbuf]
        rw [hfl, hbl]
        have hb2 : new.flatten.length + st1.params.written ≤ INT_MAX := by
          rcases hbound with h0 | h0
          · rw [h0]; exact hmax
          · exact h0
        refine ⟨⟨by simp [bytes_length], Or.inl rfl⟩, by simpa [bytes_length] using hb2,
          fun _ => rfl, fun hc => ?_⟩
        simp at hc

theorem vpd_sequence_begin_eq (env : Env) (loc_code : papr_location_code) (w : World)
    (h : w.mutex_locked = false) :
    vpd_sequence_begin env loc_code w = some (begin_state env loc_code, begin_world w) := by
  simp [vpd_sequence_begin, h, begin_state, begin_world]

theorem vpd_sequence_begin_locked (env : Env) (loc_code : papr_location_code) (w : World)
    (h : w.mutex_locked = true) : vpd_sequence_begin env loc_code w = none := by
  simp [vpd_sequence_begin, h]

theorem papr_vpd_retrieve_cases (env : Env) (fuel : Nat) (loc_code : papr_location_code)
    (seq : seq_buf) (w : World) (ret : Int) (sb : seq_buf) (w1 : World)
    (h : papr_vpd_retrieve env fuel loc_code seq w = some (ret, sb, w1)) :
    (vpd_blob_new env w = (none, { w with allocs := w.allocs + 1 }) ∧
      ret = -ENOMEM ∧ sb = seq ∧ w1 = { w with allocs := w.allocs + 1 }) ∨
    (w.mutex_locked = false ∧ ∃ st b w3,
      retrieve_loop env fuel fuel (begin_state env loc_code) (vpd_blob_init none 0)
        (begin_world { w with allocs := w.allocs + 1 }) = some (st, b, w3) ∧
      ret = st.error ∧ w1 = vpd_sequence_end st w3 ∧
      (st.error = 0 →
        sb = seq_buf_commit (seq_buf_init seq b.data b.len) (to_int b.len)) ∧
      (st.error ≠ 0 → sb = seq)) := by
  unfold papr_vpd_retrieve at h
  rcases kvmalloc_cases env 16 w with hk | ⟨_, hk⟩
  · left
    simp only [vpd_blob_new, hk, Option.some.injEq, Prod.mk.injEq] at h
    obtain ⟨h1, h2, h3⟩ := h
    exact ⟨by simp [vpd_blob_new, hk], h1.symm, h2.symm, h3.symm⟩
  · right
    simp only [vpd_blob_new, hk] at h
    by_cases hm : w.mutex_locked = true
    · rw [vpd_sequence_begin_locked env loc_code { w with allocs := w.allocs + 1 } hm] at h
      simp at h
    · have hm : w.mutex_locked = false := by simpa using hm
      rw [vpd_sequence_begin_eq env loc_code { w with allocs := w.allocs + 1 } hm] at h
      simp only [] at h
      cases hl : retrieve_loop env fuel fuel (begin_state env loc_code) (vpd_blob_init none 0)
          (begin_world { w with allocs := w.allocs + 1 }) with
      | none => rw [hl] at h; simp at h
      | some res =>
        obtain ⟨st, b, w3⟩ := res
        rw [hl] at h
        refine ⟨hm, st, b, w3, rfl, ?_⟩
        by_cases he : st.error = 0
        · simp only [he, if_true, Option.some.injEq, Prod.mk.injEq] at h
          obtain ⟨h1, h2, h3⟩ := h
          exact ⟨by rw [← h1, he], h3.symm, fun _ => by rw [← h2]; rfl,
            fun hc => absurd he hc⟩
        · simp only [he, if_false, Option.some.injEq, Prod.mk.injEq] at h
          obtain ⟨h1, h2, h3⟩ := h
          exact ⟨h1.symm, h3.symm, fun hc => absurd hc he, fun _ => h2.symm⟩

theorem chunk_inv_begin (env : Env) (loc_code : papr_location_code) (w : World) :
    ChunkInv env w (begin_state env loc_code) (vpd_blob_init none 0)
      (begin_world { w with allocs := w.allocs + 1 }) :=
  ⟨rfl, [], [], by simp [begin_world], by simp [begin_world], by simp,
    fun _ => ⟨⟨rfl, Or.inr ⟨rfl, rfl⟩⟩, by simp, fun hc => absurd rfl hc,
      fun _ => by simp [vpd_sequence_done, begin_state]⟩⟩

/-- C1. Whenever `papr_vpd_retrieve` returns, either it returns 0 and the `seq_buf` it
hands out holds exactly the in-order concatenation of the chunks exposed by the
successful `vpd_sequence_advance`s of this run, with committed length (and size) equal to
the sum of the bytes-written values of the successful firmware calls of this run, or it
returns a non-zero code and leaves the caller's `seq_buf` as it was. -/
theorem papr_vpd_retrieve_blob_is_chunks (env : Env) (fuel : Nat)
    (loc_code : papr_location_code) (seq : seq_buf) (w : World)
    (ret : Int) (sb : seq_buf) (w1 : World)
    (h : papr_vpd_retrieve env fuel loc_code seq w = some (ret, sb, w1)) :
    (ret = 0 →
      ∃ (calls : List RtasCall) (new : List (List Nat)),
        w1.rtas_log = w.rtas_log ++ calls ∧ w1.chunks = w.chunks ++ new ∧
        new.map List.length
          = (calls.filter (call_succeeded env)).map (fun c => c.rets1 % U32_MOD) ∧
        sb.buffer = some new.flatten ∧
        sb.len = (new.map List.length).sum ∧
        sb.len = ((calls.filter (call_succeeded env)).map (fun c => c.rets1 % U32_MOD)).sum ∧
        sb.size = sb.len ∧ sb.readpos = 0) ∧
    (ret ≠ 0 → sb = seq) := by
  rcases papr_vpd_retrieve_cases env fuel loc_code seq w ret sb w1 h with
    ⟨_, h1, h2, _⟩ | ⟨_, st, b, w3, hl, h1, h2, h3, h4⟩
  · subst h1
    exact ⟨fun hc => by simp [ENOMEM] at hc, fun _ => h2⟩
  · subst h1
    refine ⟨fun he => ?_, h4⟩
    obtain ⟨calls, new, p1, p2, p3, p4⟩ :=
      chunk_loop_post env fuel w fuel _ _ _ (chunk_inv_begin env loc_code w) _ _ _ hl
    obtain ⟨q1, q2, q3⟩ := p4 he
    have hsb := h3 he
    rw [q1, q2, to_int_of_le _ q3, seq_buf_commit_nat] at hsb
    simp only [seq_buf_init, Nat.zero_add] at hsb
    refine ⟨calls, new, ?_, ?_, p3, ?_, ?_, ?_, ?_, ?_⟩
    · rw [h2]; simpa [vpd_sequence_end] using p1
    · rw [h2]; simpa [vpd_sequence_end] using p2
    · rw [hsb]
    · rw [hsb]; simp
    · rw [hsb, ← p3]; simp
    · rw [hsb]
    · rw [hsb]

/-- C1 (witness). The two-chunk retrieval returns 0 and its `seq_buf` is the
concatenation of the two chunks. -/
theorem papr_vpd_retrieve_blob_is_chunks_witness :
    papr_vpd_retrieve (script_env two_chunk_script) 4 empty_loc_code fresh_seq_buf World.init
        = some (0, two_chunk_seq_buf, two_chunk_world) ∧
    (∃ (calls : List RtasCall) (new : List (List Nat)),
        two_chunk_world.rtas_log = World.init.rtas_log ++ calls ∧
        two_chunk_world.chunks = World.init.chunks ++ new ∧
        new.map List.length
          = (calls.filter (call_succeeded (script_env two_chunk_script))).map
              (fun c => c.rets1 % U32_MOD) ∧
        two_chunk_seq_buf.buffer = some new.flatten ∧
        two_chunk_seq_buf.len = (new.map List.length).sum ∧
        two_chunk_seq_buf.len
          = ((calls.filter (call_succeeded (script_env two_chunk_script))).map
              (fun c => c.rets1 % U32_MOD)).sum ∧
        two_chunk_seq_buf.size = two_chunk_seq_buf.len ∧ two_chunk_seq_buf.readpos = 0) :=
  ⟨rfl, (papr_vpd_retrieve_blob_is_chunks (script_env two_chunk_script) 4 empty_loc_code
    fresh_seq_buf World.init 0 two_chunk_seq_buf two_chunk_world rfl).1 rfl⟩

/-- C2 (the code at the failing input). After chunks of 100, 100 and 50 bytes and a
`complete` with 0 bytes, `papr_vpd_retrieve` does not stop: it issues a fifth firmware
call with the stale cursor 4, and when that call reports a hardware error it returns
`-EIO` and hands out no blob. -/
theorem papr_vpd_retrieve_zero_tail_calls_again :
    (papr_vpd_retrieve (script_env zero_tail_script) 8 empty_loc_code fresh_seq_buf
        World.init).map
      (fun r => (r.1, r.2.1.buffer, r.2.2.rtas_log.map (fun c => (c.sequence, c.status))))
      = some (- EIO, none, [(1, 1), (2, 1), (3, 1), (4, 0), (4, -1)]) := by
  decide

/-- C3 (the code at the failing input, N = 0). When the very first firmware call answers
`complete` with 0 bytes, `papr_vpd_retrieve` issues a second call with cursor 1, and when
that call reports a hardware error it returns `-EIO` and hands out no blob. -/
theorem papr_vpd_retrieve_empty_first_calls_again :
    (papr_vpd_retrieve (script_env empty_vpd_script) 8 empty_loc_code fresh_seq_buf
        World.init).map
      (fun r => (r.1, r.2.1.buffer, r.2.2.rtas_log.map (fun c => (c.sequence, c.status))))
      = some (- EIO, none, [(1, 0), (1, -1)]) := by
  decide

/-- C4 (the code at the failing input). The state reached from `vpd_sequence_begin` by
one successful `vpd_sequence_advance` whose firmware call answered `complete` with 0
bytes has no error, status 0 and 0 bytes written, and `vpd_sequence_done` is false
on it. -/
theorem vpd_sequence_done_false_after_empty_complete :
    (vpd_sequence_advance (script_env empty_vpd_script) 1
        (begin_state (script_env empty_vpd_script) empty_loc_code) World.init).map
      (fun r => (r.1, r.2.1.error, r.2.1.params.status, r.2.1.params.written,
        r.2.2.rtas_log.length, vpd_sequence_done r.2.1))
      = some (true, 0, 0, 0, 1, false) := by
  decide

/-- C7. Once the firmware gives a status that is not busy (the reply `j`, after `j` busy
ones, with fuel for them), `rtas_ibm_get_vpd` returns, `params.status` is that status,
and the result follows the table: 0 and 1 give 0 when the bytes written fit the work
area, -1 gives `-EIO`, -3 gives `-EINVAL`, -4 gives `-EAGAIN`, every other status gives
`-EIO`. -/
theorem rtas_ibm_get_vpd_status_map (env : Env) (fuel : Nat) (params : rtas_ibm_get_vpd_params)
    (w : World) (j : Nat) (hj : j < fuel)
    (hbusy : ∀ i, i < j → env.rtas_busy_delay (nth_reply env params w i).status = true)
    (hfin : env.rtas_busy_delay (nth_reply env params w j).status = false) :
    ∃ (ret : Int) (p : rtas_ibm_get_vpd_params) (w1 : World),
      rtas_ibm_get_vpd env fuel params w = some (ret, p, w1) ∧
      p.status = (nth_reply env params w j).status ∧
      (((nth_reply env params w j).status = 0 ∨ (nth_reply env params w j).status = 1) →
        (nth_reply env params w j).rets1 % U32_MOD ≤ params.work_area.size → ret = 0) ∧
      ((nth_reply env params w j).status = -1 → ret = - EIO) ∧
      ((nth_reply env params w j).status = -3 → ret = -EINVAL) ∧
      ((nth_reply env params w j).status = -4 → ret = -EAGAIN) ∧
      ((nth_reply env params w j).status ≠ 0 → (nth_reply env params w j).status ≠ 1 →
        (nth_reply env params w j).status ≠ -1 → (nth_reply env params w j).status ≠ -3 →
        (nth_reply env params w j).status ≠ -4 → ret = - EIO) := by
  obtain ⟨w1, hl⟩ := rtas_call_loop_of env params fuel j w hj hbusy hfin
  generalize nth_reply env params w j = r at hl ⊢
  refine ⟨_, _, _, by rw [rtas_ibm_get_vpd_eq, hl]; rfl, rfl, ?_, ?_, ?_, ?_, ?_⟩
  · intro h01 hfit
    have hfit2 : ¬ r.rets1 % U32_MOD > params.work_area.size := by omega
    rcases h01 with h | h <;> simp [get_vpd_ret, h, hfit2]
  · intro h; simp [get_vpd_ret, h]
  · intro h; simp [get_vpd_ret, h]
  · intro h; simp [get_vpd_ret, h]
  · intro h0 h1 h2 h3 h4; simp [get_vpd_ret, h0, h1, h2, h3, h4]

/-- C7 (witness). A busy reply followed by status -3 makes `rtas_ibm_get_vpd` return
`-EINVAL` with `params.status = -3`. -/
theorem rtas_ibm_get_vpd_status_map_witness :
    ∃ (ret : Int) (p : rtas_ibm_get_vpd_params) (w1 : World),
      rtas_ibm_get_vpd
          (script_env [{ status := -2, rets0 := 0, rets1 := 0, buf := fun _ => 0 },
                       { status := -3, rets0 := 0, rets1 := 0, buf := fun _ => 0 }])
          2 (begin_state (script_env []) empty_loc_code).params World.init
        = some (ret, p, w1) ∧
      p.status = -3 ∧ ret = -EINVAL := by
  obtain ⟨ret, p, w1, h1, h2, _, _, h5, _⟩ :=
    rtas_ibm_get_vpd_status_map
      (script_env [{ status := -2, rets0 := 0, rets1 := 0, buf := fun _ => 0 },
                   { status := -3, rets0 := 0, rets1 := 0, buf := fun _ => 0 }])
      2 (begin_state (script_env []) empty_loc_code).params World.init 1 (by decide)
      (by intro i hi
          have : i = 0 := by omega
          subst this
          decide)
      (by decide)
  exact ⟨ret, p, w1, h1, h2, h5 (by decide)⟩

/-- C5 (counterexample). The begin state is not done, and from it a firmware call that
answers `complete` (status 0) while reporting 5000 bytes written makes
`vpd_sequence_advance` return false, although one call was issued and its status is
`complete`. -/
theorem vpd_sequence_advance_false_on_complete :
    vpd_sequence_done (begin_state (script_env oversized_script) empty_loc_code) = false ∧
    (vpd_sequence_advance (script_env oversized_script) 1
        (begin_state (script_env oversized_script) empty_loc_code) World.init).map
      (fun r => (r.1, r.2.1.params.status, r.2.1.error, r.2.2.rtas_log.length))
      = some (false, 0, -EFAULT, 1) := by
  decide

/-- C5 (amended). If `vpd_sequence_done` holds, `vpd_sequence_advance` returns false,
issues no firmware call and leaves state and world unchanged. Otherwise, once the
firmware gives a status that is not busy, it has run one `rtas_ibm_get_vpd` (the log
grows by busy replies and that one final reply), cursor, status and bytes written are
updated from the final reply, and it returns true if and only if the status is complete
(0) or more-data (1) and the bytes written do not exceed the work-area size. -/
theorem vpd_sequence_advance_spec (env : Env) (fuel : Nat) (state : vpd_sequence_state)
    (w : World) :
    (vpd_sequence_done state = true →
      vpd_sequence_advance env fuel state w = some (false, state, w)) ∧
    (vpd_sequence_done state = false →
      ∀ j, j < fuel →
        (∀ i, i < j → env.rtas_busy_delay (nth_reply env state.params w i).status = true) →
        env.rtas_busy_delay (nth_reply env state.params w j).status = false →
        ∃ (r : RtasReply) (pre : List RtasCall) (w1 : World),
          r = nth_reply env state.params w j ∧
          (∀ c ∈ pre, c.sequence = state.params.sequence ∧
            env.rtas_busy_delay c.status = true) ∧
          vpd_sequence_advance env fuel state w
            = some (decide ((r.status = 0 ∨ r.status = 1) ∧
                      r.rets1 % U32_MOD ≤ state.params.work_area.size),
                    { error := get_vpd_ret state.params.work_area.size r.status r.rets1,
                      params := params_after state.params r }, w1) ∧
          w1.rtas_log = w.rtas_log ++ (pre ++ [call_record state.params.sequence r])) := by
  refine ⟨vpd_sequence_advance_done env fuel state w, ?_⟩
  intro hd j hj hbusy hfin
  obtain ⟨w2, hl⟩ := rtas_call_loop_of env state.params fuel j w hj hbusy hfin
  obtain ⟨pre, hp1, _, hp3, _, _⟩ := rtas_call_loop_some env _ _ _ fuel w _ w2 hl
  generalize nth_reply env state.params w j = r at hl hp3 ⊢
  have hiff : get_vpd_ret state.params.work_area.size r.status r.rets1 = 0 ↔
      ((r.status = 0 ∨ r.status = 1) ∧ r.rets1 % U32_MOD ≤ state.params.work_area.size) := by
    unfold get_vpd_ret
    by_cases h1 : r.status = -1
    · simp [h1, EIO]
    by_cases h3 : r.status = -3
    · simp [h3, EINVAL]
    by_cases h4 : r.status = -4
    · simp [h4, EAGAIN]
    by_cases h01 : r.status = 1 ∨ r.status = 0
    · by_cases hw : r.rets1 % U32_MOD > state.params.work_area.size
      · have : ¬ r.rets1 % U32_MOD ≤ state.params.work_area.size := by omega
        simp [h1, h3, h4, h01, hw, EFAULT, this]
      · have : r.rets1 % U32_MOD ≤ state.params.work_area.size := by omega
        simp [h1, h3, h4, h01, hw, this, h01.symm]
    · have : ¬ (r.status = 0 ∨ r.status = 1) := fun h => h01 h.symm
      simp [h1, h3, h4, h01, this, EIO]
  unfold vpd_sequence_advance
  simp only [hd, Bool.false_eq_true, if_false]
  rw [rtas_ibm_get_vpd_eq, hl]
  simp only [Option.map_some']
  by_cases he : get_vpd_ret state.params.work_area.size r.status r.rets1 = 0
  · exact ⟨r, pre, _, rfl, hp1, by simp only [he, if_true, decide_eq_true (hiff.1 he)]; rfl,
      by subst hp3; rfl⟩
  · have hn : ¬ ((r.status = 0 ∨ r.status = 1) ∧
        r.rets1 % U32_MOD ≤ state.params.work_area.size) := fun h => he (hiff.2 h)
    exact ⟨r, pre, _, rfl, hp1, by simp only [he, if_false, decide_eq_false hn]; rfl,
      by subst hp3; rfl⟩

/-- C5 (witness). From the begin state, a `more-data` reply of 3 bytes makes
`vpd_sequence_advance` return true with the cursor, status and bytes written of that
reply. -/
theorem vpd_sequence_advance_spec_witness :
    ∃ (r : RtasReply) (pre : List RtasCall) (w1 : World),
      r = nth_reply (script_env two_chunk_script)
            (begin_state (script_env two_chunk_script) empty_loc_code).params World.init 0 ∧
      (∀ c ∈ pre, c.sequence = (begin_state (script_env two_chunk_script)
          empty_loc_code).params.sequence ∧
        (script_env two_chunk_script).rtas_busy_delay c.status = true) ∧
      vpd_sequence_advance (script_env two_chunk_script) 1
          (begin_state (script_env two_chunk_script) empty_loc_code) World.init
        = some (decide ((r.status = 0 ∨ r.status = 1) ∧
                  r.rets1 % U32_MOD ≤ (begin_state (script_env two_chunk_script)
                    empty_loc_code).params.work_area.size),
                { error := get_vpd_ret (begin_state (script_env two_chunk_script)
                    empty_loc_code).params.work_area.size r.status r.rets1,
                  params := params_after (begin_state (script_env two_chunk_script)
                    empty_loc_code).params r }, w1) ∧
      w1.rtas_log = World.init.rtas_log ++ (pre ++ [call_record
        (begin_state (script_env two_chunk_script) empty_loc_code).params.sequence r]) :=
  (vpd_sequence_advance_spec (script_env two_chunk_script) 1
    (begin_state (script_env two_chunk_script) empty_loc_code) World.init).2
    (by decide) 0 (by decide) (by intro i hi; omega) (by decide)

theorem string_is_terminated_false (s : Nat → Nat) (len : Nat)
    (h : ∀ i, i < len → s i ≠ 0) : string_is_terminated s len = false := by
  unfold string_is_terminated
  rw [List.any_eq_false]
  intro i hi
  have := h i (List.mem_range.1 hi)
  simpa using this

/-- C6. A create-handle request whose copied-in handle has no nul byte among the 80
bytes of `loc_code.str` returns `-EINVAL`, copies nothing back, installs no file, and
leaves the world exactly as it was: no allocation, no mutex acquisition, no work area,
no firmware call. -/
theorem papr_vpd_ioctl_create_handle_unterminated (env : Env) (fuel : Nat)
    (khandle : papr_vpd_handle) (w : World)
    (h : ∀ i, i < 80 → khandle.loc_code.str i ≠ 0) :
    papr_vpd_ioctl_create_handle env fuel (.ok khandle) w
      = some ({ ret := -EINVAL, uhandle := none, file := none }, w) := by
  have hv : handle_valid khandle = false := by
    simp [handle_valid, papr_location_code_is_terminated, string_is_terminated_false _ _ h]
  simp [papr_vpd_ioctl_create_handle, hv]

/-- C6 (witness). The handle with all 80 location-code bytes set to the letter x is
rejected with `-EINVAL` in an untouched world. -/
theorem papr_vpd_ioctl_create_handle_unterminated_witness :
    (∀ i, i < 80 → unterminated_handle.loc_code.str i ≠ 0) ∧
    papr_vpd_ioctl_create_handle (script_env two_chunk_script) 4 (.ok unterminated_handle)
        World.init
      = some ({ ret := -EINVAL, uhandle := none, file := none }, World.init) :=
  ⟨fun _ _ => by simp [unterminated_handle],
   papr_vpd_ioctl_create_handle_unterminated (script_env two_chunk_script) 4
     unterminated_handle World.init (fun _ _ => by simp [unterminated_handle])⟩

theorem cursor_threaded_append (env : Env) (l1 l2 : List RtasCall) :
    ∀ cur, cursor_threaded env cur (l1 ++ l2) ↔
      cursor_threaded env cur l1 ∧ cursor_threaded env (cursor_after env cur l1) l2 := by
  induction l1 with
  | nil => intro cur; simp [cursor_threaded, cursor_after]
  | cons c rest ih =>
    intro cur
    show (c.sequence = cur ∧ cursor_threaded env (cursor_step env cur c) (rest ++ l2)) ↔
      (c.sequence = cur ∧ cursor_threaded env (cursor_step env cur c) rest) ∧
        cursor_threaded env (cursor_after env (cursor_step env cur c) rest) l2
    rw [ih, and_assoc]

theorem cursor_after_append (env : Env) (l1 l2 : List RtasCall) (cur : Nat) :
    cursor_after env cur (l1 ++ l2) = cursor_after env (cursor_after env cur l1) l2 := by
  simp [cursor_after, List.foldl_append]

theorem cursor_busy (env : Env) (pre : List RtasCall) :
    ∀ cur, (∀ c ∈ pre, c.sequence = cur ∧ env.rtas_busy_delay c.status = true) →
      cursor_threaded env cur pre ∧ cursor_after env cur pre = cur := by
  induction pre with
  | nil => intro cur _; simp [cursor_threaded, cursor_after]
  | cons c rest ih =>
    intro cur h
    have hc := h c (List.mem_cons_self _ _)
    have hstep : cursor_step env cur c = cur := by simp [cursor_step, hc.2]
    have hr := ih cur (fun d hd => h d (List.mem_cons_of_mem _ hd))
    simp only [cursor_threaded, cursor_after, List.foldl_cons, hstep]
    exact ⟨⟨hc.1, hr.1⟩, hr.2⟩

theorem cursor_inv_advance (env : Env) (fuel : Nat) (w0 : World) (st : vpd_sequence_state)
    (b : vpd_blob) (w : World) (ok : Bool) (st1 : vpd_sequence_state) (w1 : World)
    (hI : CursorInv env w0 st b w) (hd : vpd_sequence_done st = false)
    (ha : vpd_sequence_advance env fuel st w = some (ok, st1, w1)) :
    CursorInv env w0 st1 b w1 := by
  obtain ⟨calls, h1, h2, h3⟩ := hI
  obtain ⟨r, pre, hp1, hp2, _, _, hst, _, hw⟩ :=
    vpd_sequence_advance_some env fuel st w ok st1 w1 hd ha
  obtain ⟨hb1, hb2⟩ := cursor_busy env pre st.params.sequence hp1
  refine ⟨calls ++ (pre ++ [call_record st.params.sequence r]), ?_, ?_, ?_⟩
  · rw [hw]; simp [h1]
  · rw [cursor_threaded_append, cursor_threaded_append, ← h3, hb2]
    exact ⟨h2, hb1, by simp [cursor_threaded, call_record]⟩
  · rw [cursor_after_append, cursor_after_append, ← h3, hb2, hst]
    simp [cursor_after, cursor_step, params_after, call_record, hp2]

theorem cursor_loop_post (env : Env) (fuel : Nat) (w0 : World) :
    ∀ (n : Nat) (st : vpd_sequence_state) (b : vpd_blob) (w : World), CursorInv env w0 st b w →
      ∀ st2 b2 w2, retrieve_loop env fuel n st b w = some (st2, b2, w2) →
        CursorInv env w0 st2 b2 w2 := by
  apply retrieve_loop_rule env fuel (CursorInv env w0) (CursorInv env w0)
  · intro st b w hI _; exact hI
  · intro st b w st1 w1 hI hd ha
    exact cursor_inv_advance env fuel w0 st b w false st1 w1 hI hd ha
  · intro st b w st1 w1 hI hd ha
    obtain ⟨calls, h1, h2, h3⟩ := cursor_inv_advance env fuel w0 st b w true st1 w1 hI hd ha
    obtain ⟨f1, _⟩ := vpd_blob_append_frame env b st1.params.work_area.buf st1.params.written w1
    exact ⟨calls, by rw [f1, h1], h2, by simpa [vpd_sequence_set_err] using h3⟩

/-- C8. In every run of `papr_vpd_retrieve` that returns, the firmware calls it logged
are threaded: the first is issued with cursor 1, and each later one with the cursor held
after its predecessor, which is the first return word of that predecessor if it came
back `more-data` and the unchanged cursor otherwise. Moreover a single
`rtas_ibm_get_vpd` whose final status is not `more-data` leaves `params.sequence` as it
was, and one whose final status is `more-data` stores the returned word. -/
theorem papr_vpd_retrieve_cursor_threaded (env : Env) (fuel : Nat)
    (loc_code : papr_location_code) (seq : seq_buf) (w : World)
    (ret : Int) (sb : seq_buf) (w1 : World)
    (h : papr_vpd_retrieve env fuel loc_code seq w = some (ret, sb, w1)) :
    (∃ calls : List RtasCall, w1.rtas_log = w.rtas_log ++ calls ∧
      cursor_threaded env 1 calls) ∧
    (∀ (params : rtas_ibm_get_vpd_params) (w2 : World) (r : Int)
        (p : rtas_ibm_get_vpd_params) (w3 : World),
      rtas_ibm_get_vpd env fuel params w2 = some (r, p, w3) →
        (p.status ≠ 1 → p.sequence = params.sequence) ∧
        (p.status = 1 → ∃ c ∈ w3.rtas_log.getLast?, p.sequence = c.rets0 % U32_MOD)) := by
  constructor
  · rcases papr_vpd_retrieve_cases env fuel loc_code seq w ret sb w1 h with
      ⟨_, _, _, h3⟩ | ⟨_, st, b, w3, hl, _, h2, _, _⟩
    · exact ⟨[], by rw [h3]; simp, trivial⟩
    · have hinv : CursorInv env w (begin_state env loc_code) (vpd_blob_init none 0)
          (begin_world { w with allocs := w.allocs + 1 }) :=
        ⟨[], by simp [begin_world], trivial, rfl⟩
      obtain ⟨calls, p1, p2, _⟩ := cursor_loop_post env fuel w fuel _ _ _ hinv _ _ _ hl
      exact ⟨calls, by rw [h2]; simpa [vpd_sequence_end] using p1, p2⟩
  · intro params w2 r p w3 hr
    rw [rtas_ibm_get_vpd_eq] at hr
    cases hl : rtas_call_loop env params.loc_code params.work_area params.sequence fuel w2 with
    | none => simp [hl] at hr
    | some res =>
      obtain ⟨rep, w4⟩ := res
      obtain ⟨pre, _, _, hw4, _, _⟩ := rtas_call_loop_some env _ _ _ fuel w2 rep w4 hl
      simp only [hl, Option.map_some', Option.some.injEq, Prod.mk.injEq] at hr
      obtain ⟨_, hp, hw3⟩ := hr
      subst hp hw3
      constructor
      · intro hs
        have : rep.status ≠ 1 := hs
        simp [params_after, this]
      · intro hs
        have : rep.status = 1 := hs
        refine ⟨call_record params.sequence rep, ?_, by simp [params_after, this, call_record]⟩
        rw [hw4]
        simp [← List.append_assoc]

/-- C8 (witness). The two-chunk retrieval issues its calls with cursors 1 and then 7,
the word returned by the `more-data` reply. -/
theorem papr_vpd_retrieve_cursor_threaded_witness :
    papr_vpd_retrieve (script_env two_chunk_script) 4 empty_loc_code fresh_seq_buf World.init
        = some (0, two_chunk_seq_buf, two_chunk_world) ∧
    ∃ calls : List RtasCall, two_chunk_world.rtas_log = World.init.rtas_log ++ calls ∧
      cursor_threaded (script_env two_chunk_script) 1 calls :=
  ⟨rfl, (papr_vpd_retrieve_cursor_threaded (script_env two_chunk_script) 4 empty_loc_code
    fresh_seq_buf World.init 0 two_chunk_seq_buf two_chunk_world rfl).1⟩

theorem empty_vpd_advance (fuel : Nat) (st : vpd_sequence_state) (w : World)
    (he : st.error = 0) (hs : st.params.status = 0) (hw : st.params.written = 0) :
    vpd_sequence_advance empty_vpd_env fuel st w = none ∨
    ∃ st1 w1, vpd_sequence_advance empty_vpd_env fuel st w = some (true, st1, w1) ∧
      st1.error = 0 ∧ st1.params.status = 0 ∧ st1.params.written = 0 := by
  have hd : vpd_sequence_done st = false := by simp [vpd_sequence_done, he, hs, hw]
  cases ha : vpd_sequence_advance empty_vpd_env fuel st w with
  | none => exact Or.inl rfl
  | some res =>
    obtain ⟨ok, st1, w1⟩ := res
    obtain ⟨r, pre, _, _, _, hr, hst, hb, _⟩ :=
      vpd_sequence_advance_some empty_vpd_env fuel st w ok st1 w1 hd ha
    have hr2 : r = complete 0 (fun _ => 0) := by rw [hr]; rfl
    have h1 : st1.error = 0 := by
      rw [hst, hr2]; simp [get_vpd_ret, complete, U32_MOD]
    have h2 : st1.params.status = 0 := by rw [hst, hr2]; rfl
    have h3 : st1.params.written = 0 := by
      rw [hst, hr2]; simp [params_after, complete, U32_MOD]
    have hok : ok = true := by rw [hb]; simp [h1]
    subst hok
    exact Or.inr ⟨st1, w1, rfl, h1, h2, h3⟩

theorem empty_vpd_append (b : vpd_blob) (buf : Nat → Nat) (w : World) (hb : b.len = 0) :
    (vpd_blob_append empty_vpd_env b buf 0 w).1 = 0 ∧
    (vpd_blob_append empty_vpd_env b buf 0 w).2.1.len = 0 := by
  unfold vpd_blob_append
  cases hd : b.data with
  | none =>
    simp [vpd_blob_setup, kvmalloc, empty_vpd_env, INT_MAX, vpd_blob_init]
  | some p =>
    simp [hb, kvrealloc, SIZE_MOD]

theorem empty_vpd_loop_never_returns (fuel : Nat) :
    ∀ (n : Nat) (st : vpd_sequence_state) (b : vpd_blob) (w : World),
      st.error = 0 → st.params.status = 0 → st.params.written = 0 → b.len = 0 →
      retrieve_loop empty_vpd_env fuel n st b w = none := by
  intro n
  induction n with
  | zero => intro st b w _ _ _ _; rfl
  | succ n ih =>
    intro st b w he hs hw hb
    unfold retrieve_loop
    rcases empty_vpd_advance fuel st w he hs hw with ha | ⟨st1, w1, ha, h1, h2, h3⟩
    · rw [ha]
    · rw [ha]
      simp only [vpd_sequence_get_buffer]
      rw [h3]
      obtain ⟨q1, q2⟩ := empty_vpd_append b st1.params.work_area.buf w1 hb
      exact ih _ _ _ (by simp [vpd_sequence_set_err, q1]) (by simpa [vpd_sequence_set_err] using h2)
        (by simpa [vpd_sequence_set_err] using h3) q2

/-- Against a firmware that answers every call `complete` with 0 bytes written,
`papr_vpd_retrieve` does not return, whatever the fuel: it keeps re-issuing the first
call with the mutex held. -/
theorem papr_vpd_retrieve_empty_vpd_never_returns (fuel : Nat) (seq : seq_buf) :
    papr_vpd_retrieve empty_vpd_env fuel empty_loc_code seq World.init = none := by
  unfold papr_vpd_retrieve
  have hk : vpd_blob_new empty_vpd_env World.init
      = (some (vpd_blob_init none 0), { World.init with allocs := World.init.allocs + 1 }) := by
    simp [vpd_blob_new, kvmalloc, empty_vpd_env, INT_MAX]
  rw [hk]
  simp only []
  rw [vpd_sequence_begin_eq empty_vpd_env empty_loc_code _ rfl]
  simp only []
  rw [empty_vpd_loop_never_returns fuel fuel _ _ _ rfl rfl rfl rfl]

theorem rtas_call_loop_mono (env : Env) (lc : papr_location_code) (wa : rtas_work_area)
    (sequence : Nat) :
    ∀ (fuel fuel2 : Nat) (w : World) (x : RtasReply × World), fuel ≤ fuel2 →
      rtas_call_loop env lc wa sequence fuel w = some x →
      rtas_call_loop env lc wa sequence fuel2 w = some x := by
  intro fuel
  induction fuel with
  | zero => intro fuel2 w x _ h; simp [rtas_call_loop] at h
  | succ n ih =>
    intro fuel2 w x hle h
    obtain ⟨m, rfl⟩ : ∃ m, fuel2 = m + 1 := ⟨fuel2 - 1, by omega⟩
    unfold rtas_call_loop at h ⊢
    simp only [] at h ⊢
    split at h
    · rename_i hb
      rw [if_pos hb]
      exact ih m _ x (by omega) h
    · rename_i hb
      rw [if_neg hb]
      exact h

theorem rtas_ibm_get_vpd_mono (env : Env) (fuel fuel2 : Nat) (params : rtas_ibm_get_vpd_params)
    (w : World) (x : Int × rtas_ibm_get_vpd_params × World) (hle : fuel ≤ fuel2)
    (h : rtas_ibm_get_vpd env fuel params w = some x) :
    rtas_ibm_get_vpd env fuel2 params w = some x := by
  rw [rtas_ibm_get_vpd_eq] at h ⊢
  cases hl : rtas_call_loop env params.loc_code params.work_area params.sequence fuel w with
  | none => simp [hl] at h
  | some y =>
    rw [rtas_call_loop_mono env _ _ _ fuel fuel2 w y hle hl]
    rw [hl] at h
    exact h

theorem vpd_sequence_advance_mono (env : Env) (fuel fuel2 : Nat) (st : vpd_sequence_state)
    (w : World) (x : Bool × vpd_sequence_state × World) (hle : fuel ≤ fuel2)
    (h : vpd_sequence_advance env fuel st w = some x) :
    vpd_sequence_advance env fuel2 st w = some x := by
  unfold vpd_sequence_advance at h ⊢
  by_cases hd : vpd_sequence_done st = true
  · simp only [hd, if_true] at h ⊢
    exact h
  · simp only [hd, if_false] at h ⊢
    cases hg : rtas_ibm_get_vpd env fuel st.params w with
    | none => simp [hg] at h
    | some y =>
      rw [rtas_ibm_get_vpd_mono env fuel fuel2 st.params w y hle hg]
      rw [hg] at h
      exact h

theorem retrieve_loop_mono (env : Env) (fuel fuel2 : Nat) (hle : fuel ≤ fuel2) :
    ∀ (n n2 : Nat) (st : vpd_sequence_state) (b : vpd_blob) (w : World)
      (x : vpd_sequence_state × vpd_blob × World), n ≤ n2 →
      retrieve_loop env fuel n st b w = some x →
      retrieve_loop env fuel2 n2 st b w = some x := by
  intro n
  induction n with
  | zero => intro n2 st b w x _ h; simp [retrieve_loop] at h
  | succ n ih =>
    intro n2 st b w x hn h
    obtain ⟨m, rfl⟩ : ∃ m, n2 = m + 1 := ⟨n2 - 1, by omega⟩
    unfold retrieve_loop at h ⊢
    cases ha : vpd_sequence_advance env fuel st w with
    | none => simp [ha] at h
    | some y =>
      rw [vpd_sequence_advance_mono env fuel fuel2 st w y hle ha]
      rw [ha] at h
      obtain ⟨ok, st1, w1⟩ := y
      cases ok with
      | false => exact h
      | true => exact ih m _ _ _ x (by omega) h

/-- Fuel only bounds the search: once `papr_vpd_retrieve` returns a result with some
fuel, it returns the same result with any larger fuel. -/
theorem papr_vpd_retrieve_mono (env : Env) (fuel fuel2 : Nat) (loc_code : papr_location_code)
    (seq : seq_buf) (w : World) (x : Int × seq_buf × World) (hle : fuel ≤ fuel2)
    (h : papr_vpd_retrieve env fuel loc_code seq w = some x) :
    papr_vpd_retrieve env fuel2 loc_code seq w = some x := by
  unfold papr_vpd_retrieve at h ⊢
  cases hn : vpd_blob_new env w with
  | mk o w1 =>
    rw [hn] at h
    cases o with
    | none => exact h
    | some blob =>
      simp only [] at h ⊢
      cases hb : vpd_sequence_begin env loc_code w1 with
      | none => rw [hb] at h; simp at h
      | some y =>
        obtain ⟨st0, w2⟩ := y
        rw [hb] at h
        simp only [] at h ⊢
        cases hl : retrieve_loop env fuel fuel st0 blob w2 with
        | none => rw [hl] at h; simp at h
        | some z =>
          rw [retrieve_loop_mono env fuel fuel2 hle fuel fuel2 st0 blob w2 z hle hl]
          rw [hl] at h
          exact h

/-- The clauses of `vpd_sequence_done` that hold on every state: a recorded error is
done; without error, `more-data` is not done, `complete` with bytes written is done,
`complete` with no bytes written is not done, and any other status is done. -/
theorem vpd_sequence_done_cases (st : vpd_sequence_state) :
    (st.error ≠ 0 → vpd_sequence_done st = true) ∧
    (st.error = 0 → st.params.status = 1 → vpd_sequence_done st = false) ∧
    (st.error = 0 → st.params.status = 0 → st.params.written ≠ 0 →
      vpd_sequence_done st = true) ∧
    (st.error = 0 → st.params.status = 0 → st.params.written = 0 →
      vpd_sequence_done st = false) ∧
    (st.params.status ≠ 0 → st.params.status ≠ 1 → vpd_sequence_done st = true) := by
  refine ⟨?_, ?_, ?_, ?_, ?_⟩
  · intro h; simp [vpd_sequence_done, h]
  · intro h1 h2; simp [vpd_sequence_done, h1, h2]
  · intro h1 h2 h3; simp [vpd_sequence_done, h1, h2, h3]
  · intro h1 h2 h3; simp [vpd_sequence_done, h1, h2, h3]
  · intro h1 h2; simp [vpd_sequence_done, h1, h2]

theorem vpd_sequence_advance_first (env : Env) (fuel : Nat) (st : vpd_sequence_state)
    (w : World) (hd : vpd_sequence_done st = false) (hf : 0 < fuel)
    (hnb : env.rtas_busy_delay (nth_reply env st.params w 0).status = false)
    (hok : get_vpd_ret st.params.work_area.size (nth_reply env st.params w 0).status
      (nth_reply env st.params w 0).rets1 = 0) :
    vpd_sequence_advance env fuel st w
      = some (true,
          { error := 0, params := params_after st.params (nth_reply env st.params w 0) },
          { w with
            rtas_log := w.rtas_log ++
              [call_record st.params.sequence (nth_reply env st.params w 0)],
            chunks := w.chunks ++
              [bytes (nth_reply env st.params w 0).buf
                (params_after st.params (nth_reply env st.params w 0)).written] }) := by
  obtain ⟨k, rfl⟩ : ∃ k, fuel = k + 1 := ⟨fuel - 1, by omega⟩
  have hl : rtas_call_loop env st.params.loc_code st.params.work_area st.params.sequence
      (k + 1) w = some (nth_reply env st.params w 0,
        { w with rtas_log := w.rtas_log ++
            [call_record st.params.sequence (nth_reply env st.params w 0)] }) := by
    have hnb2 : env.rtas_busy_delay (env.firmware w.rtas_log.length st.params.loc_code.str
        st.params.work_area.size st.params.sequence).status = false := by
      simpa [nth_reply] using hnb
    unfold rtas_call_loop rtas_call
    simp only [hnb2, Bool.false_eq_true, if_false]
    rfl
  unfold vpd_sequence_advance
  simp only [hd, Bool.false_eq_true, if_false]
  rw [rtas_ibm_get_vpd_eq, hl]
  simp only [Option.map_some', hok, if_true]
  have h01 : (nth_reply env st.params w 0).status = 1 ∨ (nth_reply env st.params w 0).status = 0 := by
    unfold get_vpd_ret at hok
    by_contra hc
    simp only [hc, if_false] at hok
    split_ifs at hok <;> simp [ EIO, EINVAL, EAGAIN] at hok
  have hfit : ¬ (nth_reply env st.params w 0).rets1 % U32_MOD > st.params.work_area.size := by
    unfold get_vpd_ret at hok
    intro hc
    have h1 : (nth_reply env st.params w 0).status ≠ -1 := by rcases h01 with h | h <;> simp [h]
    have h3 : (nth_reply env st.params w 0).status ≠ -3 := by rcases h01 with h | h <;> simp [h]
    have h4 : (nth_reply env st.params w 0).status ≠ -4 := by rcases h01 with h | h <;> simp [h]
    simp [h1, h3, h4, h01, hc, EFAULT] at hok
  simp [params_after, hfit]

/-- For N between 1 and the work-area size: when the very first firmware call answers
`complete` with N bytes written (and the two allocations are granted),
`papr_vpd_retrieve` issues no further firmware call and succeeds with a blob of exactly
the first N bytes of the work area. -/
theorem papr_vpd_retrieve_complete_first (env : Env) (fuel : Nat)
    (loc_code : papr_location_code) (seq : seq_buf) (w : World) (r : RtasReply)
    (hfuel : 2 ≤ fuel) (hm : w.mutex_locked = false)
    (hr : r = env.firmware w.rtas_log.length loc_code.str SZ_4K 1)
    (hnb : env.rtas_busy_delay r.status = false) (hs : r.status = 0)
    (hN1 : 1 ≤ r.rets1) (hN2 : r.rets1 ≤ SZ_4K)
    (ha1 : env.alloc_ok w.allocs 16 = true)
    (ha2 : env.alloc_ok (w.allocs + 1) r.rets1 = true) :
    (papr_vpd_retrieve env fuel loc_code seq w).map (fun x => (x.1, x.2.1, x.2.2.rtas_log))
      = some (0, { buffer := some (bytes r.buf r.rets1), size := r.rets1,
                   len := r.rets1, readpos := 0 },
              w.rtas_log ++ [call_record 1 r]) := by
  have hmod : r.rets1 % U32_MOD = r.rets1 := by
    apply Nat.mod_eq_of_lt; unfold SZ_4K at hN2; unfold U32_MOD; omega
  have hmax : r.rets1 ≤ INT_MAX := by unfold SZ_4K at hN2; unfold INT_MAX; omega
  have hne : r.rets1 ≠ 0 := by omega
  have hnot : ¬ r.rets1 > SZ_4K := by omega
  have hr0 : nth_reply env (begin_state env loc_code).params
      (begin_world { w with allocs := w.allocs + 1 }) 0 = r := by
    rw [hr]; rfl
  have hadv := vpd_sequence_advance_first env 2 (begin_state env loc_code)
    (begin_world { w with allocs := w.allocs + 1 }) (by simp [vpd_sequence_done, begin_state])
    (by omega) (by rw [hr0]; exact hnb)
    (by rw [hr0]; simp [get_vpd_ret, hs, hmod, begin_state, hnot])
  rw [hr0] at hadv
  have hwr : (params_after (begin_state env loc_code).params r).written = r.rets1 := by
    simp [params_after, hs, hmod]
  have h2 : (papr_vpd_retrieve env 2 loc_code seq w).map
      (fun x => (x.1, x.2.1, x.2.2.rtas_log))
      = some (0, { buffer := some (bytes r.buf r.rets1), size := r.rets1,
                   len := r.rets1, readpos := 0 },
              w.rtas_log ++ [call_record 1 r]) := by
    unfold papr_vpd_retrieve
    simp only [vpd_blob_new, kvmalloc, ha1, INT_MAX, and_true, Nat.reduceLeDiff, if_true]
    rw [vpd_sequence_begin_eq env loc_code { w with allocs := w.allocs + 1 } hm]
    simp only []
    unfold retrieve_loop
    rw [hadv]
    simp only [vpd_sequence_get_buffer, hwr, vpd_blob_append, vpd_blob_init, vpd_blob_setup,
      kvmalloc, begin_world, ha2, hmax, and_self, if_true, memcpy_at_fresh,
      vpd_sequence_set_err]
    unfold retrieve_loop
    rw [vpd_sequence_advance_done _ _ _ _
      (by simp [vpd_sequence_done, params_after, hs, hmod, hne])]
    simp only [if_true, vpd_blob_detach_data, to_int_of_le _ hmax, seq_buf_commit_nat,
      seq_buf_init, vpd_sequence_end, Option.map_some', params_after, begin_state]
    simp [call_record]
  cases hx : papr_vpd_retrieve env 2 loc_code seq w with
  | none => rw [hx] at h2; simp at h2
  | some x =>
    rw [papr_vpd_retrieve_mono env 2 fuel loc_code seq w x hfuel hx]
    rw [hx] at h2
    exact h2

theorem vpd_blob_append_result (env : Env) (blob : vpd_blob) (data : Nat → Nat) (len : Nat)
    (w : World) :
    (vpd_blob_append env blob data len w).1 = 0 ∨
    ((vpd_blob_append env blob data len w).1 = -ENOMEM ∧
      (vpd_blob_append env blob data len w).2.1 = blob) := by
  unfold vpd_blob_append vpd_blob_setup
  cases hd : blob.data with
  | none =>
    simp only []
    rcases kvmalloc_cases env len { w with warns := w.warns + (vpd_blob_has_data blob).2 }
      with hk | ⟨_, hk⟩ <;> rw [hk]
    · right; exact ⟨rfl, rfl⟩
    · left; rfl
  | some p =>
    simp only []
    cases hr : kvrealloc env p blob.len ((blob.len + len) % SIZE_MOD)
      { w with warns := w.warns + (vpd_blob_has_data blob).2 } with
    | mk o w1 =>
      cases o with
      | none => right; exact ⟨rfl, rfl⟩
      | some q => left; rfl

/-- C11. `vpd_blob_append` either succeeds (returns 0) or returns `-ENOMEM` with the
blob exactly as it was, for every blob and input; and when the allocation it needs
fails (`kvmalloc` in `vpd_blob_setup` for a blob without data, `kvrealloc` for a blob
with data), it returns `-ENOMEM` with `data` and `len` unchanged. -/
theorem vpd_blob_append_atomic (env : Env) (blob : vpd_blob) (data : Nat → Nat) (len : Nat)
    (w : World) :
    ((vpd_blob_append env blob data len w).1 = 0 ∨
      ((vpd_blob_append env blob data len w).1 = -ENOMEM ∧
        (vpd_blob_append env blob data len w).2.1 = blob)) ∧
    (blob.data = none → (kvmalloc env len (append_world blob w)).1 = none →
      (vpd_blob_append env blob data len w).1 = -ENOMEM ∧
      (vpd_blob_append env blob data len w).2.1.data = blob.data ∧
      (vpd_blob_append env blob data len w).2.1.len = blob.len) ∧
    (∀ p, blob.data = some p →
      (kvrealloc env p blob.len ((blob.len + len) % SIZE_MOD) (append_world blob w)).1 = none →
      (vpd_blob_append env blob data len w).1 = -ENOMEM ∧
      (vpd_blob_append env blob data len w).2.1.data = blob.data ∧
      (vpd_blob_append env blob data len w).2.1.len = blob.len) := by
  refine ⟨vpd_blob_append_result env blob data len w, ?_, ?_⟩
  · intro hd hk
    unfold vpd_blob_append vpd_blob_setup
    simp only [hd]
    unfold append_world at hk
    cases hr : kvmalloc env len { w with warns := w.warns + (vpd_blob_has_data blob).2 } with
    | mk o w1 =>
      rw [hr] at hk
      simp only [] at hk
      subst hk
      exact ⟨rfl, hd, rfl⟩
  · intro p hd hk
    unfold vpd_blob_append
    simp only [hd]
    unfold append_world at hk
    cases hr : kvrealloc env p blob.len ((blob.len + len) % SIZE_MOD)
      { w with warns := w.warns + (vpd_blob_has_data blob).2 } with
    | mk o w1 =>
      rw [hr] at hk
      simp only [] at hk
      subst hk
      exact ⟨rfl, hd, rfl⟩

/-- C12 (the code at the failing input). A granted append of zero bytes to the blob
`vpd_blob_new` makes leaves `data` non-NULL with `len = 0`, which breaks the invariant
and makes the next `vpd_blob_has_data` warn; and in `papr_vpd_retrieve`, a `more-data`
reply with 0 bytes followed by a `complete` with 3 bytes raises that warning although
the retrieval succeeds. -/
theorem vpd_blob_append_zero_breaks_invariant :
    blob_invariant (vpd_blob_init none 0) ∧
    (vpd_blob_append (script_env []) (vpd_blob_init none 0) (fun _ => 0) 0 World.init).1 = 0 ∧
    (vpd_blob_append (script_env []) (vpd_blob_init none 0) (fun _ => 0) 0 World.init).2.1.data
      = some [] ∧
    (vpd_blob_append (script_env []) (vpd_blob_init none 0) (fun _ => 0) 0 World.init).2.1.len
      = 0 ∧
    ¬ blob_invariant
      (vpd_blob_append (script_env []) (vpd_blob_init none 0) (fun _ => 0) 0 World.init).2.1 ∧
    (vpd_blob_has_data
      (vpd_blob_append (script_env []) (vpd_blob_init none 0) (fun _ => 0) 0 World.init).2.1).2
      = 1 ∧
    (papr_vpd_retrieve (script_env empty_chunk_script) 4 empty_loc_code fresh_seq_buf
        World.init).map (fun r => (r.1, r.2.1.buffer, r.2.2.warns))
      = some (0, some [1, 2, 3], 1) := by
  refine ⟨by simp [blob_invariant, vpd_blob_init], by decide, by decide, by decide, ?_,
    by decide, by decide⟩
  have h1 : (vpd_blob_append (script_env []) (vpd_blob_init none 0) (fun _ => 0) 0
      World.init).2.1.data = some [] := by decide
  have h2 : (vpd_blob_append (script_env []) (vpd_blob_init none 0) (fun _ => 0) 0
      World.init).2.1.len = 0 := by decide
  intro h
  have := h.2 h2
  rw [h1] at this
  exact absurd this (by simp)

/-- C17. `vpd_blob_detach_data` returns the blob's current `len` and `data` and leaves
the blob empty (`data` absent, `len` 0), for every blob; so a second detach returns
length 0 and no buffer, and so does a detach on the blob `vpd_blob_new` makes, which was
never appended to. -/
theorem vpd_blob_detach_data_spec (blob : vpd_blob) :
    vpd_blob_detach_data blob = (blob.len, blob.data, { data := none, len := 0 }) ∧
    vpd_blob_detach_data (vpd_blob_detach_data blob).2.2
      = (0, none, { data := none, len := 0 }) ∧
    (∀ (env : Env) (w : World) (b : vpd_blob), (vpd_blob_new env w).1 = some b →
      vpd_blob_detach_data b = (0, none, { data := none, len := 0 })) := by
  refine ⟨rfl, rfl, ?_⟩
  intro env w b hb
  unfold vpd_blob_new at hb
  rcases kvmalloc_cases env 16 w with hk | ⟨_, hk⟩
  · rw [hk] at hb; simp at hb
  · rw [hk] at hb
    simp only [Option.some.injEq] at hb
    subst hb
    rfl

theorem string_is_terminated_iff (s : Nat → Nat) (len : Nat) :
    string_is_terminated s len = true ↔ ∃ i, i < len ∧ s i = 0 := by
  unfold string_is_terminated
  rw [List.any_eq_true]
  constructor
  · rintro ⟨i, hi, h⟩
    exact ⟨i, List.mem_range.1 hi, by simpa using h⟩
  · rintro ⟨i, hi, h⟩
    exact ⟨i, List.mem_range.2 hi, by simpa using h⟩

/-- C19. `handle_valid` is true if and only if `loc_code.str` has a nul byte at some
index below 80 and the five reserved words are all zero. Hence two handles that have a
nul at a common index below 80 and the same reserved words get the same answer whatever
their `fd`, `size` and other location-code bytes; the all-zero handle is accepted; and a
handle with a non-zero reserved word is rejected. -/
theorem handle_valid_iff (handle : papr_vpd_handle) :
    (handle_valid handle = true ↔
      (∃ i, i < 80 ∧ handle.loc_code.str i = 0) ∧ (∀ j, j < 5 → handle.reserved j = 0)) ∧
    (∀ (other : papr_vpd_handle) (k : Nat), k < 80 → handle.loc_code.str k = 0 →
      other.loc_code.str k = 0 → (∀ j, j < 5 → other.reserved j = handle.reserved j) →
      handle_valid other = handle_valid handle) ∧
    handle_valid zero_handle = true ∧
    (∀ j, j < 5 → handle.reserved j ≠ 0 → handle_valid handle = false) := by
  have key : ∀ h : papr_vpd_handle, handle_valid h = true ↔
      (∃ i, i < 80 ∧ h.loc_code.str i = 0) ∧ (∀ j, j < 5 → h.reserved j = 0) := by
    intro h
    unfold handle_valid papr_location_code_is_terminated
    by_cases ht : string_is_terminated h.loc_code.str 80 = true
    · have hex := (string_is_terminated_iff _ _).1 ht
      simp only [ht, Bool.true_eq_false, if_false, List.all_eq_true, List.mem_range,
        beq_iff_eq]
      exact ⟨fun hr => ⟨hex, hr⟩, fun hr => hr.2⟩
    · have hnex : ¬ ∃ i, i < 80 ∧ h.loc_code.str i = 0 :=
        fun hex => ht ((string_is_terminated_iff _ _).2 hex)
      have ht2 : string_is_terminated h.loc_code.str 80 = false := by simpa using ht
      simp only [ht2, if_true]
      exact ⟨fun hc => absurd hc (by simp), fun hr => absurd hr.1 hnex⟩
  refine ⟨key handle, ?_, by decide, ?_⟩
  · intro other k hk h1 h2 hres
    have e1 : handle_valid other = true ↔ handle_valid handle = true := by
      rw [key other, key handle]
      constructor
      · rintro ⟨_, hr⟩
        exact ⟨⟨k, hk, h1⟩, fun j hj => by rw [← hres j hj]; exact hr j hj⟩
      · rintro ⟨_, hr⟩
        exact ⟨⟨k, hk, h2⟩, fun j hj => by rw [hres j hj]; exact hr j hj⟩
    cases ha : handle_valid other <;> cases hb : handle_valid handle <;> simp_all
  · intro j hj hne
    cases hv : handle_valid handle with
    | false => rfl
    | true => exact absurd (((key handle).1 hv).2 j hj) hne

theorem get_vpd_ret_zero (size : Nat) (status : Int) (rets1 : Nat)
    (h : get_vpd_ret size status rets1 = 0) :
    (status = 1 ∨ status = 0) ∧ rets1 % U32_MOD ≤ size := by
  have h01 : status = 1 ∨ status = 0 := by
    unfold get_vpd_ret at h
    by_contra hc
    simp only [hc, if_false] at h
    split_ifs at h <;> simp [ EIO, EINVAL, EAGAIN] at h
  refine ⟨h01, ?_⟩
  by_contra hc
  have hgt : rets1 % U32_MOD > size := by omega
  unfold get_vpd_ret at h
  have h1 : status ≠ -1 := by rcases h01 with h | h <;> simp [h]
  have h3 : status ≠ -3 := by rcases h01 with h | h <;> simp [h]
  have h4 : status ≠ -4 := by rcases h01 with h | h <;> simp [h]
  simp [h1, h3, h4, h01, hgt, EFAULT] at h

theorem vpd_sequence_done_true_no_error (st : vpd_sequence_state)
    (hd : vpd_sequence_done st = true) (he : st.error = 0)
    (h01 : st.params.status = 0 ∨ st.params.status = 1) :
    st.params.status = 0 ∧ st.params.written ≠ 0 := by
  unfold vpd_sequence_done at hd
  simp only [he, ne_eq, not_true_eq_false, if_false] at hd
  rcases h01 with h0 | h1
  · refine ⟨h0, ?_⟩
    intro hw
    simp [h0, hw] at hd
  · simp [h1] at hd

theorem size_loop_post (env : Env) (fuel : Nat) :
    ∀ (n : Nat) (st : vpd_sequence_state) (b : vpd_blob) (w : World), SizeInv st b w →
      ∀ st2 b2 w2, retrieve_loop env fuel n st b w = some (st2, b2, w2) →
        SizePost st2 b2 w2 := by
  apply retrieve_loop_rule env fuel SizeInv SizePost
  · intro st b w hI hd he
    obtain ⟨h01, l, h1, h2, h3⟩ := hI he
    obtain ⟨_, hw⟩ := vpd_sequence_done_true_no_error st hd he h01
    exact ⟨l, h1, h2, by omega⟩
  · intro st b w st1 w1 _ hd ha he
    obtain ⟨r, pre, _, _, _, _, _, hb, _⟩ :=
      vpd_sequence_advance_some env fuel st w false st1 w1 hd ha
    have : st1.error ≠ 0 := by simpa using hb
    exact absurd he this
  · intro st b w st1 w1 hI hd ha herr
    obtain ⟨r, pre, _, _, _, _, hst, hb, _⟩ :=
      vpd_sequence_advance_some env fuel st w true st1 w1 hd ha
    have he : st1.error = 0 := by simpa using hb.symm
    have hz : get_vpd_ret st.params.work_area.size r.status r.rets1 = 0 := by
      rw [hst] at he; exact he
    obtain ⟨h01, _⟩ := get_vpd_ret_zero _ _ _ hz
    have hwr : st1.params.written = r.rets1 % U32_MOD := by
      rw [hst]; simp [params_after, h01]
    have hstat : st1.params.status = r.status := by rw [hst]; rfl
    obtain ⟨_, l, h1, h2, _⟩ := hI (vpd_sequence_done_false_error st hd)
    have hlen : l.length + st1.params.written < SIZE_MOD := by
      have h5 : st1.params.written < U32_MOD := by
        rw [hwr]; exact Nat.mod_lt _ (by unfold U32_MOD; omega)
      unfold INT_MAX at h2; unfold U32_MOD at h5; unfold SIZE_MOD
      omega
    simp only [vpd_sequence_set_err] at herr ⊢
    rcases vpd_blob_append_spec env b l st1.params.work_area.buf st1.params.written w1 h1 hlen
      with ⟨hrc, _⟩ | ⟨_, hbl, hbound⟩
    · rw [hrc] at herr; simp [ENOMEM] at herr
    · refine ⟨by rw [hstat]; exact h01.symm,
        l ++ bytes st1.params.work_area.buf st1.params.written, ?_, ?_, ?_⟩
      · rw [hbl]; exact ⟨by simp [bytes_length], Or.inl rfl⟩
      · rcases hbound with h0 | h0
        · simp [bytes_length, h0, h2]
        · simpa [bytes_length] using h0
      · simp [bytes_length]

theorem size_inv_begin (env : Env) (loc_code : papr_location_code) (w : World) :
    SizeInv (begin_state env loc_code) (vpd_blob_init none 0) w :=
  fun _ => ⟨Or.inl rfl, [], ⟨rfl, Or.inr ⟨rfl, rfl⟩⟩, by simp, by simp [begin_state]⟩

theorem papr_vpd_retrieve_nonempty (env : Env) (fuel : Nat) (loc_code : papr_location_code)
    (seq : seq_buf) (w : World) (sb : seq_buf) (w1 : World)
    (h : papr_vpd_retrieve env fuel loc_code seq w = some (0, sb, w1)) :
    0 < seq_buf_used sb ∧ seq_buf_used sb ≤ INT_MAX ∧ seq_buf_used sb = sb.len ∧
    sb.size = sb.len := by
  rcases papr_vpd_retrieve_cases env fuel loc_code seq w 0 sb w1 h with
    ⟨_, h1, _, _⟩ | ⟨_, st, b, w3, hl, h1, _, h3, _⟩
  · simp [ENOMEM] at h1
  · have he : st.error = 0 := h1.symm
    obtain ⟨l, ⟨q1, _⟩, q2, q3⟩ :=
      size_loop_post env fuel fuel _ _ _ (size_inv_begin env loc_code _) _ _ _ hl he
    have hsb := h3 he
    rw [q1, to_int_of_le _ q2, seq_buf_commit_nat] at hsb
    simp only [seq_buf_init, Nat.zero_add] at hsb
    rw [hsb]
    simp [seq_buf_used, q3, q2]

/-- C14. Whenever a create-handle request succeeds (returns 0; an error pointer never
carries the code 0), a handle is copied back and a file installed, and the size reported
in the handle is greater than 0 and is the number of bytes the file holds; this is so
because `papr_vpd_retrieve` returns 0 only after a `complete` call that wrote at least
one byte, so that the `seq_buf` of every successful retrieval is not empty. -/
theorem papr_vpd_ioctl_create_handle_size_pos (env : Env) (fuel : Nat)
    (khandle : Except Int papr_vpd_handle) (w : World) (res : CreateResult) (w1 : World)
    (hptr1 : khandle ≠ .error 0) (hptr2 : env.anon_inode_getfile_err ≠ some 0)
    (h : papr_vpd_ioctl_create_handle env fuel khandle w = some (res, w1))
    (hret : res.ret = 0) :
    (∃ (uh : papr_vpd_handle) (f : seq_buf), res.uhandle = some uh ∧ res.file = some f ∧
      0 < uh.size ∧ uh.size = seq_buf_used f ∧ seq_buf_used f = f.len) ∧
    (∀ (loc_code : papr_location_code) (seq : seq_buf) (w2 : World) (sb : seq_buf)
        (w3 : World),
      papr_vpd_retrieve env fuel loc_code seq w2 = some (0, sb, w3) →
      0 < seq_buf_used sb) := by
  refine ⟨?_, fun loc_code seq w2 sb w3 hr =>
    (papr_vpd_retrieve_nonempty env fuel loc_code seq w2 sb w3 hr).1⟩
  unfold papr_vpd_ioctl_create_handle at h
  cases khandle with
  | error e =>
    simp only [Option.some.injEq, Prod.mk.injEq] at h
    obtain ⟨h1, _⟩ := h
    rw [← h1] at hret
    simp only [] at hret
    subst hret
    exact absurd rfl hptr1
  | ok kh =>
    simp only [] at h
    by_cases hv : handle_valid kh = false
    · simp only [hv, if_true, Option.some.injEq, Prod.mk.injEq] at h
      rw [← h.1] at hret
      simp [EINVAL] at hret
    · have hv2 : handle_valid kh = true := by simpa using hv
      simp only [hv2, Bool.true_eq_false, if_false] at h
      rcases kvmalloc_cases env 32 w with hk | ⟨_, hk⟩
      · rw [hk] at h
        simp only [Option.some.injEq, Prod.mk.injEq] at h
        rw [← h.1] at hret
        simp [ENOMEM] at hret
      · rw [hk] at h
        simp only [] at h
        cases hr : papr_vpd_retrieve env fuel kh.loc_code
            { buffer := none, size := 0, len := 0, readpos := 0 }
            { w with allocs := w.allocs + 1 } with
        | none => rw [hr] at h; simp at h
        | some x =>
          obtain ⟨r, vpd1, w2⟩ := x
          rw [hr] at h
          simp only [] at h
          by_cases hr0 : r = 0
          · subst hr0
            obtain ⟨q1, q2, q3, _⟩ := papr_vpd_retrieve_nonempty env fuel _ _ _ _ _ hr
            have hmod : seq_buf_used vpd1 % U32_MOD = seq_buf_used vpd1 := by
              apply Nat.mod_eq_of_lt
              unfold INT_MAX at q2; unfold U32_MOD; omega
            simp only [ne_eq, not_true_eq_false, if_false] at h
            by_cases hfd : env.get_unused_fd_flags < 0
            · simp only [hfd, if_true, Option.some.injEq, Prod.mk.injEq] at h
              rw [← h.1] at hret
              simp only [] at hret
              omega
            · simp only [hfd, if_false] at h
              by_cases hcp : env.copy_to_user_ok = false
              · simp only [hcp, if_true, Option.some.injEq, Prod.mk.injEq] at h
                rw [← h.1] at hret
                simp [EFAULT] at hret
              · have hcp2 : env.copy_to_user_ok = true := by simpa using hcp
                simp only [hcp2, Bool.true_eq_false, if_false] at h
                cases hg : env.anon_inode_getfile_err with
                | some e =>
                  rw [hg] at h
                  simp only [Option.some.injEq, Prod.mk.injEq] at h
                  rw [← h.1] at hret
                  simp only [] at hret
                  subst hret
                  exact absurd hg hptr2
                | none =>
                  rw [hg] at h
                  simp only [Option.some.injEq, Prod.mk.injEq] at h
                  rw [← h.1]
                  exact ⟨_, _, rfl, rfl, by simp only [hmod]; exact q1,
                    by simp only [hmod], q3⟩
          · simp only [ne_eq, hr0, not_false_eq_true, if_true, Option.some.injEq,
              Prod.mk.injEq] at h
            rw [← h.1] at hret
            exact absurd hret hr0

/-- C14 (witness). The create-handle request for the all-zero handle against the
two-chunk firmware succeeds and reports size 5. -/
theorem papr_vpd_ioctl_create_handle_size_pos_witness :
    papr_vpd_ioctl_create_handle (script_env two_chunk_script) 4 (.ok zero_handle) World.init
        = some (two_chunk_create_result, { two_chunk_world with allocs := 4 }) ∧
    ∃ (uh : papr_vpd_handle) (f : seq_buf), two_chunk_create_result.uhandle = some uh ∧
      two_chunk_create_result.file = some f ∧
      0 < uh.size ∧ uh.size = seq_buf_used f ∧ seq_buf_used f = f.len :=
  ⟨rfl, (papr_vpd_ioctl_create_handle_size_pos (script_env two_chunk_script) 4
    (.ok zero_handle) World.init two_chunk_create_result { two_chunk_world with allocs := 4 }
    (by simp) (by simp [script_env]) rfl rfl).1⟩

/-- C20. Whenever `vpd_sequence_advance` returns true, the length
`vpd_sequence_get_buffer` returns is at most the size of the work area (which the call
did not change); and every chunk exposed in a run of `papr_vpd_retrieve` that returns,
hence every chunk it appends, is at most `SZ_4K` = 4096 bytes long. -/
theorem vpd_sequence_advance_chunk_fits (env : Env) (fuel : Nat) (st : vpd_sequence_state)
    (w : World) (st1 : vpd_sequence_state) (w1 : World)
    (h : vpd_sequence_advance env fuel st w = some (true, st1, w1)) :
    (vpd_sequence_get_buffer st1).2 ≤ st1.params.work_area.size ∧
    st1.params.work_area.size = st.params.work_area.size ∧
    (∀ (loc_code : papr_location_code) (seq : seq_buf) (w2 : World) (ret : Int)
        (sb : seq_buf) (w3 : World),
      papr_vpd_retrieve env fuel loc_code seq w2 = some (ret, sb, w3) →
      ∃ new : List (List Nat), w3.chunks = w2.chunks ++ new ∧
        ∀ c ∈ new, c.length ≤ SZ_4K) := by
  have hd : vpd_sequence_done st = false := by
    by_contra hc
    have hc2 : vpd_sequence_done st = true := by simpa using hc
    rw [vpd_sequence_advance_done env fuel st w hc2] at h
    simp at h
  obtain ⟨r, pre, _, _, _, _, hst, hb, _⟩ :=
    vpd_sequence_advance_some env fuel st w true st1 w1 hd h
  have he : st1.error = 0 := by simpa using hb.symm
  have hz : get_vpd_ret st.params.work_area.size r.status r.rets1 = 0 := by
    rw [hst] at he; exact he
  obtain ⟨h01, hfit⟩ := get_vpd_ret_zero _ _ _ hz
  refine ⟨?_, by rw [hst]; rfl, ?_⟩
  · rw [hst]
    simpa [vpd_sequence_get_buffer, params_after, h01] using hfit
  · intro loc_code seq w2 ret sb w3 hr
    rcases papr_vpd_retrieve_cases env fuel loc_code seq w2 ret sb w3 hr with
      ⟨_, _, _, h3⟩ | ⟨_, st2, b, w4, hl, _, h2, _, _⟩
    · exact ⟨[], by rw [h3]; simp, by simp⟩
    · obtain ⟨calls, new, _, p2, p3, _⟩ :=
        chunk_loop_post env fuel w2 fuel _ _ _ (chunk_inv_begin env loc_code w2) _ _ _ hl
      refine ⟨new, by rw [h2]; simpa [vpd_sequence_end] using p2, ?_⟩
      intro c hc
      have hmem : c.length ∈ new.map List.length := List.mem_map.2 ⟨c, hc, rfl⟩
      rw [p3] at hmem
      obtain ⟨call, hcall, hlen⟩ := List.mem_map.1 hmem
      have hs := (List.mem_filter.1 hcall).2
      have hs2 : get_vpd_ret SZ_4K call.status call.rets1 = 0 := by
        simp only [call_succeeded, Bool.and_eq_true, decide_eq_true_eq] at hs
        exact hs.2
      rw [← hlen]
      exact (get_vpd_ret_zero _ _ _ hs2).2

/-- C20 (witness). The first advance of the two-chunk retrieval exposes 3 bytes, within
the 4096 of the work area. -/
theorem vpd_sequence_advance_chunk_fits_witness :
    (vpd_sequence_get_buffer
      { error := 0, params := params_after (begin_state (script_env two_chunk_script)
          empty_loc_code).params (more_data 7 3 (fun i => i + 1)) }).2 ≤ 4096 :=
  (vpd_sequence_advance_chunk_fits (script_env two_chunk_script) 1
    (begin_state (script_env two_chunk_script) empty_loc_code) World.init
    { error := 0, params := params_after (begin_state (script_env two_chunk_script)
        empty_loc_code).params (more_data 7 3 (fun i => i + 1)) }
    { World.init with
      rtas_log := [{ sequence := 1, status := 1, rets0 := 7, rets1 := 3 }],
      chunks := [[1, 2, 3]] }
    rfl).1

theorem papr_vpd_handle_read_ok (s : seq_buf) (d : List Nat) (size : Nat)
    (hs : StreamOk s d) :
    papr_vpd_handle_read s size 0
      = (Int.ofNat (min size (d.length - s.readpos)),
         (d.drop s.readpos).take (min size (d.length - s.readpos)),
         { s with readpos := s.readpos + min size (d.length - s.readpos) }) := by
  obtain ⟨h1, h2, h3, h4, h5⟩ := hs
  obtain ⟨sbuf, ssize, slen, spos⟩ := s
  simp only [] at h1 h2 h3 h5
  subst h1 h2 h3
  have hused : seq_buf_used
      { buffer := some d, size := d.length, len := d.length, readpos := spos } = d.length := by
    simp [seq_buf_used]
  have hcs : min size d.length ≤ INT_MAX := le_trans (Nat.min_le_right _ _) h4
  unfold papr_vpd_handle_read seq_buf_to_user
  simp only [hused, to_int_of_le _ hcs, to_int_of_le _ h4, Option.getD_some]
  by_cases hc0 : ((min size d.length : Nat) : Int) = 0
  · have hz : min size d.length = 0 := by exact_mod_cast hc0
    have hz2 : min size (d.length - spos) = 0 := by omega
    simp only [hc0, if_true, hz2]
    simp [EBUSY]
  · have hz : min size d.length ≠ 0 := fun h => hc0 (by exact_mod_cast h)
    simp only [hc0, if_false]
    by_cases hend : (d.length : Int) ≤ (spos : Int)
    · have he : d.length - spos = 0 := by omega
      simp only [hend, if_true, he, Nat.min_zero]
      simp
    · have hlt : spos < d.length := by omega
      simp only [hend, if_false]
      have hcnt : (if ((min size d.length : Nat) : Int) > (d.length : Int) - (spos : Int)
          then (d.length : Int) - (spos : Int) else ((min size d.length : Nat) : Int))
          = ((min size (d.length - spos) : Nat) : Int) := by
        split_ifs with hgt <;> omega
      rw [hcnt]
      have hpos : 0 < min size (d.length - spos) := by omega
      have hmin : min ((0 : Nat) : Int) ((min size (d.length - spos) : Nat) : Int) = 0 := by
        omega
      simp only [hmin]
      have hne : ¬ ((0 : Int) = ((min size (d.length - spos) : Nat) : Int)) := by omega
      simp only [hne, if_false, sub_zero, Int.toNat_ofNat]
      have hnb : ¬ (((min size (d.length - spos) : Nat) : Int) = -EBUSY) := by
        unfold EBUSY; omega
      simp only [hnb, if_false]
      rfl

theorem stream_ok_read (s : seq_buf) (d : List Nat) (size : Nat) (hs : StreamOk s d) :
    StreamOk (papr_vpd_handle_read s size 0).2.2 d := by
  rw [papr_vpd_handle_read_ok s d size hs]
  obtain ⟨h1, h2, h3, h4, h5⟩ := hs
  exact ⟨h1, h2, h3, h4, by simp only []; omega⟩

theorem read_all_spec (d : List Nat) :
    ∀ (sizes : List Nat) (s : seq_buf), StreamOk s d →
      (read_all s sizes).1 = (expected_counts (d.length - s.readpos) sizes).map Int.ofNat ∧
      (read_all s sizes).2.1
        = (d.drop s.readpos).take (min sizes.sum (d.length - s.readpos)) ∧
      (read_all s sizes).2.2
        = { s with readpos := s.readpos + min sizes.sum (d.length - s.readpos) } := by
  intro sizes
  induction sizes with
  | nil => intro s _; simp [read_all, expected_counts]
  | cons size rest ih =>
    intro s hs
    have hr := papr_vpd_handle_read_ok s d size hs
    have hs2 := stream_ok_read s d size hs
    obtain ⟨i1, i2, i3⟩ := ih _ hs2
    have hpos : (papr_vpd_handle_read s size 0).2.2.readpos
        = s.readpos + min size (d.length - s.readpos) := by rw [hr]
    have h5 := hs.2.2.2.2
    unfold read_all
    simp only []
    rw [i1, i2, i3, hpos]
    refine ⟨?_, ?_, ?_⟩
    · rw [hr]
      simp only [expected_counts, List.map_cons]
      congr 2
      congr 1
      omega
    · rw [hr]
      simp only [List.sum_cons]
      have e1 : List.drop (s.readpos + min size (d.length - s.readpos)) d
          = List.drop (min size (d.length - s.readpos)) (List.drop s.readpos d) := by
        rw [List.drop_drop]
      rw [e1, ← List.take_add]
      congr 1
      omega
    · rw [hr]
      simp only [List.sum_cons]
      congr 1
      omega

theorem expected_counts_sum :
    ∀ (sizes : List Nat) (remaining : Nat),
      ((expected_counts remaining sizes).map Int.ofNat).sum
        = Int.ofNat (min sizes.sum remaining) := by
  intro sizes
  induction sizes with
  | nil => intro r; simp [expected_counts]
  | cons size rest ih =>
    intro r
    simp only [expected_counts, List.map_cons, List.sum_cons, ih]
    simp only [Int.ofNat_eq_coe]
    omega

theorem papr_vpd_retrieve_stream_ok (env : Env) (fuel : Nat) (loc_code : papr_location_code)
    (seq : seq_buf) (w : World) (sb : seq_buf) (w1 : World)
    (h : papr_vpd_retrieve env fuel loc_code seq w = some (0, sb, w1)) :
    ∃ d : List Nat, StreamOk sb d ∧ sb.readpos = 0 ∧ 0 < d.length := by
  rcases papr_vpd_retrieve_cases env fuel loc_code seq w 0 sb w1 h with
    ⟨_, h1, _, _⟩ | ⟨_, st, b, w3, hl, h1, _, h3, _⟩
  · simp [ENOMEM] at h1
  · have he : st.error = 0 := h1.symm
    obtain ⟨l, ⟨q1, q4⟩, q2, q3⟩ :=
      size_loop_post env fuel fuel _ _ _ (size_inv_begin env loc_code _) _ _ _ hl he
    have hsb := h3 he
    rw [q1, to_int_of_le _ q2, seq_buf_commit_nat] at hsb
    simp only [seq_buf_init, Nat.zero_add] at hsb
    have hdata : b.data = some l := by
      rcases q4 with h | ⟨_, h⟩
      · exact h
      · rw [h] at q3; simp at q3
    rw [hdata] at hsb
    refine ⟨l, ?_, by rw [hsb], q3⟩
    rw [hsb]
    exact ⟨rfl, rfl, rfl, q2, by simp⟩

/-- C15. On a handle streaming the bytes `d` (as `papr_vpd_retrieve` leaves it on
success), with every copy to user space succeeding: each `papr_vpd_handle_read` returns
the smaller of the requested size and the number of bytes not yet consumed, delivers
that many bytes from the read position and advances it; a run of reads from the start
returns these counts, delivers the first bytes of `d` in order, and the counts sum to
the smaller of the total requested and the length of `d`; once the requests cover the
length, the counts sum to it, the bytes delivered are `d`, and every further read
returns 0 and delivers nothing. -/
theorem papr_vpd_handle_read_stream (s : seq_buf) (d : List Nat) (sizes : List Nat)
    (hs : StreamOk s d) (h0 : s.readpos = 0) :
    (∀ (s2 : seq_buf) (size : Nat), StreamOk s2 d →
      papr_vpd_handle_read s2 size 0
        = (Int.ofNat (min size (d.length - s2.readpos)),
           (d.drop s2.readpos).take (min size (d.length - s2.readpos)),
           { s2 with readpos := s2.readpos + min size (d.length - s2.readpos) })) ∧
    (read_all s sizes).1 = (expected_counts d.length sizes).map Int.ofNat ∧
    (read_all s sizes).2.1 = d.take (min sizes.sum d.length) ∧
    (read_all s sizes).1.sum = Int.ofNat (min sizes.sum d.length) ∧
    (d.length ≤ sizes.sum →
      (read_all s sizes).1.sum = Int.ofNat d.length ∧
      (read_all s sizes).2.1 = d ∧
      ∀ size, papr_vpd_handle_read (read_all s sizes).2.2 size 0
        = (0, [], (read_all s sizes).2.2)) := by
  obtain ⟨r1, r2, r3⟩ := read_all_spec d sizes s hs
  rw [h0] at r1 r2 r3
  simp only [Nat.sub_zero, List.drop_zero, Nat.zero_add] at r1 r2 r3
  have hsum : (read_all s sizes).1.sum = Int.ofNat (min sizes.sum d.length) := by
    rw [r1, expected_counts_sum]
  refine ⟨fun s2 size h2 => papr_vpd_handle_read_ok s2 d size h2, r1, r2, hsum, ?_⟩
  intro hcover
  have hmin : min sizes.sum d.length = d.length := by omega
  refine ⟨by rw [hsum, hmin], by rw [r2, hmin, List.take_length], ?_⟩
  intro size
  have hfin : StreamOk (read_all s sizes).2.2 d := by
    rw [r3]
    obtain ⟨h1, h2, h3, h4, _⟩ := hs
    exact ⟨h1, h2, h3, h4, by simp only [hmin]; exact le_refl _⟩
  rw [papr_vpd_handle_read_ok _ d size hfin]
  have hp : (read_all s sizes).2.2.readpos = d.length := by rw [r3]; simp only [hmin]
  rw [hp]
  simp only [Nat.sub_self, Nat.min_zero, Nat.add_zero, List.take_zero]
  refine Prod.ext rfl (Prod.ext rfl ?_)
  simp only []
  rw [← hp]

/-- C15 (witness). On a handle of three bytes, one read of 3 bytes followed by another
returns 3 and then 0, and reads of one byte at a time return 1, 1, 1 and then 0; both
deliver the three bytes in order. -/
theorem papr_vpd_handle_read_stream_witness :
    ((read_all three_byte_stream [3, 3]).1 = (expected_counts 3 [3, 3]).map Int.ofNat ∧
      (read_all three_byte_stream [3, 3]).2.1 = [1, 2, 3] ∧
      (read_all three_byte_stream [3, 3]).1 = [3, 0]) ∧
    ((read_all three_byte_stream [1, 1, 1, 1]).1
        = (expected_counts 3 [1, 1, 1, 1]).map Int.ofNat ∧
      (read_all three_byte_stream [1, 1, 1, 1]).2.1 = [1, 2, 3] ∧
      (read_all three_byte_stream [1, 1, 1, 1]).1 = [1, 1, 1, 0]) :=
  ⟨⟨(papr_vpd_handle_read_stream three_byte_stream [1, 2, 3] [3, 3]
      ⟨rfl, rfl, rfl, by decide, by decide⟩ rfl).2.1,
    (papr_vpd_handle_read_stream three_byte_stream [1, 2, 3] [3, 3]
      ⟨rfl, rfl, rfl, by decide, by decide⟩ rfl).2.2.1, by decide⟩,
   ⟨(papr_vpd_handle_read_stream three_byte_stream [1, 2, 3] [1, 1, 1, 1]
      ⟨rfl, rfl, rfl, by decide, by decide⟩ rfl).2.1,
    (papr_vpd_handle_read_stream three_byte_stream [1, 2, 3] [1, 1, 1, 1]
      ⟨rfl, rfl, rfl, by decide, by decide⟩ rfl).2.2.1, by decide⟩⟩

theorem loop_iterations_then (env : Env) (fuel : Nat) :
    ∀ (k m : Nat) (st : vpd_sequence_state) (b : vpd_blob) (w : World)
      (x : vpd_sequence_state × vpd_blob × World),
      loop_iterations env fuel k st b w = some x →
      retrieve_loop env fuel (k + m) st b w = retrieve_loop env fuel m x.1 x.2.1 x.2.2 := by
  intro k
  induction k with
  | zero =>
    intro m st b w x h
    simp only [loop_iterations, Option.some.injEq] at h
    subst h
    simp
  | succ k ih =>
    intro m st b w x h
    unfold loop_iterations at h
    have hk : k + 1 + m = (k + m) + 1 := by omega
    rw [hk]
    conv => lhs; unfold retrieve_loop
    cases ha : vpd_sequence_advance env fuel st w with
    | none => rw [ha] at h; simp at h
    | some y =>
      obtain ⟨ok, st1, w1⟩ := y
      rw [ha] at h
      cases ok with
      | false => simp at h
      | true =>
        simp only [] at h
        by_cases hrc : (vpd_blob_append env b st1.params.work_area.buf
            st1.params.written w1).1 = 0
        · simp only [hrc, if_true] at h
          simp only [vpd_sequence_get_buffer]
          rw [hrc]
          exact ih m _ _ _ x h
        · simp only [hrc, if_false] at h
          simp at h

theorem loop_iterations_frame (env : Env) (fuel : Nat) :
    ∀ (k : Nat) (st : vpd_sequence_state) (b : vpd_blob) (w : World)
      (x : vpd_sequence_state × vpd_blob × World),
      loop_iterations env fuel k st b w = some x →
      x.2.2.log = w.log ∧ x.2.2.mutex_locked = w.mutex_locked ∧
      x.2.2.work_areas = w.work_areas := by
  intro k
  induction k with
  | zero =>
    intro st b w x h
    simp only [loop_iterations, Option.some.injEq] at h
    subst h
    exact ⟨rfl, rfl, rfl⟩
  | succ k ih =>
    intro st b w x h
    unfold loop_iterations at h
    cases ha : vpd_sequence_advance env fuel st w with
    | none => rw [ha] at h; simp at h
    | some y =>
      obtain ⟨ok, st1, w1⟩ := y
      rw [ha] at h
      cases ok with
      | false => simp at h
      | true =>
        simp only [] at h
        by_cases hrc : (vpd_blob_append env b st1.params.work_area.buf
            st1.params.written w1).1 = 0
        · simp only [hrc, if_true] at h
          obtain ⟨i1, i2, i3⟩ := ih _ _ _ x h
          obtain ⟨_, _, f3, f4, f5⟩ :=
            vpd_blob_append_frame env b st1.params.work_area.buf st1.params.written w1
          have hd : vpd_sequence_done st = false := by
            by_contra hc
            have hc2 : vpd_sequence_done st = true := by simpa using hc
            rw [vpd_sequence_advance_done env fuel st w hc2] at ha
            simp at ha
          obtain ⟨r, pre, _, _, _, _, _, _, hw⟩ :=
            vpd_sequence_advance_some env fuel st w true st1 w1 hd ha
          have g1 : w1.log = w.log := by rw [hw]
          have g2 : w1.mutex_locked = w.mutex_locked := by rw [hw]
          have g3 : w1.work_areas = w.work_areas := by rw [hw]
          exact ⟨by rw [i1, f3, g1], by rw [i2, f4, g2], by rw [i3, f5, g3]⟩
        · simp only [hrc, if_false] at h
          simp at h

theorem retrieve_loop_append_fails (env : Env) (fuel m : Nat) (st : vpd_sequence_state)
    (b : vpd_blob) (w : World) (st1 : vpd_sequence_state) (w1 : World)
    (ha : vpd_sequence_advance env fuel st w = some (true, st1, w1))
    (hf : (vpd_blob_append env b st1.params.work_area.buf st1.params.written w1).1 ≠ 0) :
    retrieve_loop env fuel (m + 2) st b w
      = some (vpd_sequence_set_err st1 (-ENOMEM), b,
          (vpd_blob_append env b st1.params.work_area.buf st1.params.written w1).2.2) := by
  rcases vpd_blob_append_result env b st1.params.work_area.buf st1.params.written w1 with
    h0 | ⟨h1, h2⟩
  · exact absurd h0 hf
  · unfold retrieve_loop
    rw [ha]
    simp only [vpd_sequence_get_buffer]
    rw [h1, h2]
    unfold retrieve_loop
    rw [vpd_sequence_advance_done _ _ _ _
      (by simp [vpd_sequence_done, vpd_sequence_set_err, ENOMEM])]

/-- C16. Whatever the firmware does and wherever the allocation fails: if, after `k`
iterations of the chunk loop that each fetched and appended a chunk, one more
`vpd_sequence_advance` succeeds and the `vpd_blob_append` of its chunk fails, then that
append returned `-ENOMEM`, and `papr_vpd_retrieve` (with fuel for these iterations)
returns `-ENOMEM` with the caller's `seq_buf` untouched, in the world that
`vpd_sequence_end` makes of the one the failed append left: the log of firmware calls is
the one at the time of the failure (no further call), and the sequence was ended (lock,
work-area allocation, free, unlock; mutex released). -/
theorem papr_vpd_retrieve_append_failure (env : Env) (fuel : Nat)
    (loc_code : papr_location_code) (seq : seq_buf) (w : World) (k : Nat)
    (x : vpd_sequence_state × vpd_blob × World) (st1 : vpd_sequence_state) (w1 : World)
    (hm : w.mutex_locked = false) (hnew : env.alloc_ok w.allocs 16 = true)
    (hpre : loop_iterations env fuel k (begin_state env loc_code) (vpd_blob_init none 0)
      (begin_world { w with allocs := w.allocs + 1 }) = some x)
    (hadv : vpd_sequence_advance env fuel x.1 x.2.2 = some (true, st1, w1))
    (hfail : (vpd_blob_append env x.2.1 st1.params.work_area.buf st1.params.written w1).1 ≠ 0)
    (hfuel : k + 2 ≤ fuel) :
    (vpd_blob_append env x.2.1 st1.params.work_area.buf st1.params.written w1).1 = -ENOMEM ∧
    papr_vpd_retrieve env fuel loc_code seq w
      = some (-ENOMEM, seq, vpd_sequence_end st1
          (vpd_blob_append env x.2.1 st1.params.work_area.buf st1.params.written w1).2.2) ∧
    (vpd_sequence_end st1
      (vpd_blob_append env x.2.1 st1.params.work_area.buf st1.params.written w1).2.2).rtas_log
      = w1.rtas_log ∧
    (vpd_sequence_end st1
      (vpd_blob_append env x.2.1 st1.params.work_area.buf st1.params.written w1).2.2).log
      = w.log ++ [Event.mutex_lock, Event.work_area_alloc SZ_4K,
                  Event.work_area_free, Event.mutex_unlock] ∧
    (vpd_sequence_end st1
      (vpd_blob_append env x.2.1 st1.params.work_area.buf st1.params.written w1).2.2).mutex_locked
      = false := by
  have hrc : (vpd_blob_append env x.2.1 st1.params.work_area.buf st1.params.written w1).1
      = -ENOMEM := by
    rcases vpd_blob_append_result env x.2.1 st1.params.work_area.buf st1.params.written w1
      with h0 | ⟨h1, _⟩
    · exact absurd h0 hfail
    · exact h1
  obtain ⟨f1, _, f3, _, _⟩ :=
    vpd_blob_append_frame env x.2.1 st1.params.work_area.buf st1.params.written w1
  obtain ⟨p1, _, _⟩ := loop_iterations_frame env fuel k _ _ _ x hpre
  have hd : vpd_sequence_done x.1 = false := by
    by_contra hc
    have hc2 : vpd_sequence_done x.1 = true := by simpa using hc
    rw [vpd_sequence_advance_done env fuel x.1 x.2.2 hc2] at hadv
    simp at hadv
  obtain ⟨r, pre, _, _, _, _, _, _, hw⟩ :=
    vpd_sequence_advance_some env fuel x.1 x.2.2 true st1 w1 hd hadv
  have g1 : w1.log = x.2.2.log := by rw [hw]
  refine ⟨hrc, ?_, by simp [vpd_sequence_end, f1], ?_, by simp [vpd_sequence_end]⟩
  · obtain ⟨m, hmf⟩ : ∃ m, fuel = k + (m + 2) := ⟨fuel - (k + 2), by omega⟩
    have hloop : retrieve_loop env fuel fuel (begin_state env loc_code) (vpd_blob_init none 0)
        (begin_world { w with allocs := w.allocs + 1 })
        = some (vpd_sequence_set_err st1 (-ENOMEM), x.2.1,
            (vpd_blob_append env x.2.1 st1.params.work_area.buf st1.params.written w1).2.2) := by
      conv => lhs; arg 3; rw [hmf]
      rw [loop_iterations_then env fuel k (m + 2) _ _ _ x hpre]
      exact retrieve_loop_append_fails env fuel m x.1 x.2.1 x.2.2 st1 w1 hadv hfail
    unfold papr_vpd_retrieve
    simp only [vpd_blob_new, kvmalloc, hnew, INT_MAX, and_true, Nat.reduceLeDiff, if_true]
    rw [vpd_sequence_begin_eq env loc_code { w with allocs := w.allocs + 1 } hm]
    simp only []
    rw [hloop]
    simp [vpd_sequence_set_err, ENOMEM, vpd_sequence_end]
  · simp only [vpd_sequence_end, f3, g1, p1, begin_world]
    simp

/-- C16 (witness). Against the two-chunk firmware, when the allocation for the second
chunk is refused, `papr_vpd_retrieve` returns `-ENOMEM` after the two firmware calls
made so far, with the mutex released. -/
theorem papr_vpd_retrieve_append_failure_witness :
    papr_vpd_retrieve alloc_fail_env 4 empty_loc_code fresh_seq_buf World.init
      = some (-ENOMEM, fresh_seq_buf, alloc_fail_world) ∧
    alloc_fail_world.rtas_log = alloc_fail_advanced.rtas_log ∧
    alloc_fail_world.mutex_locked = false :=
  ⟨(papr_vpd_retrieve_append_failure alloc_fail_env 4 empty_loc_code fresh_seq_buf
      World.init 1 alloc_fail_first alloc_fail_state alloc_fail_advanced
      rfl rfl rfl rfl (by decide) (by decide)).2.1,
   (papr_vpd_retrieve_append_failure alloc_fail_env 4 empty_loc_code fresh_seq_buf
      World.init 1 alloc_fail_first alloc_fail_state alloc_fail_advanced
      rfl rfl rfl rfl (by decide) (by decide)).2.2.1,
   rfl⟩

/-- In the sequential model a `papr_vpd_retrieve` that finds `vpd_sequence_mutex` held
does not return (its `mutex_lock` blocks), whatever the fuel. -/
theorem papr_vpd_retrieve_blocks_on_held_mutex (env : Env) (fuel : Nat)
    (loc_code : papr_location_code) (seq : seq_buf) (w : World)
    (hm : w.mutex_locked = true) (hnew : env.alloc_ok w.allocs 16 = true) :
    papr_vpd_retrieve env fuel loc_code seq w = none := by
  unfold papr_vpd_retrieve
  simp only [vpd_blob_new, kvmalloc, hnew, INT_MAX, and_true, Nat.reduceLeDiff, if_true]
  rw [vpd_sequence_begin_locked env loc_code { w with allocs := w.allocs + 1 } hm]

end PaprVpd
